import Mathlib

/-!
# esp32-mcpserver: the MCP protocol core

A shallow embedding of `src/MCPServer.cpp` and `include/MCPServer.h`.

* JSON documents (`JsonDocument`, `JsonVariant`, `JsonObject`, `JsonArray` of the
  ArduinoJson library) are values of the tree type `JsonVariant`; an in-place
  update `doc[key] = v` becomes `JsonVariant.setMember`, `array.add(v)` becomes
  `JsonVariant.addElement`.
* `std::string` and the Arduino `String` are both Lean strings. ArduinoJson
  stores and reads both with their length, so texts pass between documents
  and strings unchanged. The conversion `String(s.c_str())` goes through a
  C string and keeps the characters before the first NUL: `c_str`.
* The text-level entry points of ArduinoJson that the repository calls but
  does not define are collected in the structure `ArduinoJson`: the decoder
  `deserializeJson` and the rendering of floating-point numbers. Every theorem
  holds for every such library.
* A tool handler is a function from the argument document to either a result
  document or a failure (a C++ exception); `MCPServer.handle` returns the
  response together with the list of handler invocations it performed, or
  the failure that escaped.
* Logging (`Serial`), the HTTP listener and the session id are not modelled.
-/

namespace MCP

/-! ## ArduinoJson values -/

/-- A JSON value as ArduinoJson stores it. A floating-point number is kept as
its bit pattern: the program never computes with it. Object members are kept
in insertion order. -/
inductive JsonVariant where
  | null
  | boolean (b : Bool)
  | integer (n : Int)
  | float (bits : Nat)
  | string (s : String)
  | array (elements : List JsonVariant)
  | object (members : List (String × JsonVariant))
deriving Inhabited

namespace JsonVariant

/-- The test `v.isNull()`. -/
def isNull : JsonVariant → Bool
  | .null => true
  | _ => false

/-- The test `v.is<std::string>()`: true exactly on string values. -/
def isString : JsonVariant → Bool
  | .string _ => true
  | _ => false

/-- First member of a member list stored under `key`, null when there is none. -/
def findMember (key : String) : List (String × JsonVariant) → JsonVariant
  | [] => .null
  | (k, v) :: rest => if k = key then v else findMember key rest

/-- The read `v[key]`: the member of an object, null for a missing key and
for every value that is not an object. -/
def getMember (v : JsonVariant) (key : String) : JsonVariant :=
  match v with
  | .object members => findMember key members
  | _ => .null

/-- Whether a member list has an entry under `key`. -/
def hasKey (key : String) : List (String × JsonVariant) → Bool
  | [] => false
  | (k, _) :: rest => if k = key then true else hasKey key rest

/-- Replace the value stored under `key`, or append a new member at the end. -/
def assignMember (key : String) (value : JsonVariant) :
    List (String × JsonVariant) → List (String × JsonVariant)
  | [] => [(key, value)]
  | (k, v) :: rest =>
    if k = key then (k, value) :: rest else (k, v) :: assignMember key value rest

/-- The write `v[key] = value`: a null value first becomes an empty object; a
value that is neither null nor an object is left as it is. -/
def setMember (v : JsonVariant) (key : String) (value : JsonVariant) : JsonVariant :=
  match v with
  | .null => .object [(key, value)]
  | .object members => .object (assignMember key value members)
  | other => other

/-- The call `v.add(value)` on an array: append one element. -/
def addElement (v : JsonVariant) (value : JsonVariant) : JsonVariant :=
  match v with
  | .null => .array [value]
  | .array elements => .array (elements ++ [value])
  | other => other

/-- The keys of an object in stored order; empty for other values. -/
def keys : JsonVariant → List String
  | .object members => members.map Prod.fst
  | _ => []

end JsonVariant

/-! ## ArduinoJson text output -/

/-- The escape letter ArduinoJson writes after a backslash for `c`, if any:
the double quote, the backslash, and the controls b, f, n, r, t. -/
def escapeChar (c : Char) : Option Char :=
  if c = Char.ofNat 34 then some (Char.ofNat 34)
  else if c = Char.ofNat 92 then some (Char.ofNat 92)
  else if c = Char.ofNat 8 then some (Char.ofNat 98)
  else if c = Char.ofNat 12 then some (Char.ofNat 102)
  else if c = Char.ofNat 10 then some (Char.ofNat 110)
  else if c = Char.ofNat 13 then some (Char.ofNat 114)
  else if c = Char.ofNat 9 then some (Char.ofNat 116)
  else none

/-- The characters written for one character of a string value. -/
def writeChar (c : Char) : List Char :=
  match escapeChar c with
  | some e => [Char.ofNat 92, e]
  | none => if c = Char.ofNat 0 then "\\u0000".data else [c]

/-- The characters written for the body of a string value. -/
def writeChars : List Char → List Char
  | [] => []
  | c :: cs => writeChar c ++ writeChars cs

/-- A string value as JSON text: quoted and escaped. -/
def writeString (s : String) : String :=
  "\"" ++ String.mk (writeChars s.data) ++ "\""

mutual
/-- The compact JSON text of a value, as `serializeJson` writes it;
`writeFloat` renders a floating-point number from its bit pattern. -/
def writeVariant (writeFloat : Nat → String) : JsonVariant → String
  | .null => "null"
  | .boolean b => if b then "true" else "false"
  | .integer n => toString n
  | .float bits => writeFloat bits
  | .string s => writeString s
  | .array elements => "[" ++ writeElements writeFloat elements ++ "]"
  | .object members => "\x7b" ++ writeMembers writeFloat members ++ "\x7d"
/-- The elements of an array, separated by commas. -/
def writeElements (writeFloat : Nat → String) : List JsonVariant → String
  | [] => ""
  | [e] => writeVariant writeFloat e
  | e :: rest => writeVariant writeFloat e ++ "," ++ writeElements writeFloat rest
/-- The members of an object, separated by commas. -/
def writeMembers (writeFloat : Nat → String) : List (String × JsonVariant) → String
  | [] => ""
  | [(k, v)] => writeString k ++ ":" ++ writeVariant writeFloat v
  | (k, v) :: rest =>
    writeString k ++ ":" ++ writeVariant writeFloat v ++ "," ++ writeMembers writeFloat rest
end

/-- The error codes of `DeserializationError` other than `Ok`. -/
inductive DeserializationError where
  | EmptyInput
  | IncompleteInput
  | InvalidInput
  | NoMemory
  | TooDeep
deriving DecidableEq, Repr

/-- The text-level services of the ArduinoJson library that the repository
calls: the decoder, the float renderer, and the decoder's answer on an empty
input. -/
structure ArduinoJson where
  deserializeJson : String → Except DeserializationError JsonVariant
  writeFloat : Nat → String
  emptyInput : deserializeJson "" = Except.error DeserializationError.EmptyInput

/-- The call `serializeJson(doc, text)`: the compact JSON text of a document. -/
def serializeJson (lib : ArduinoJson) (doc : JsonVariant) : String :=
  writeVariant lib.writeFloat doc

/-- The conversion `v.as<std::string>()`: the content of a string value, and
the JSON text of every other value (so `null` for a missing member). -/
def asStdString (lib : ArduinoJson) (v : JsonVariant) : String :=
  match v with
  | .string s => s
  | other => serializeJson lib other

/-! ## Envelopes -/

/-- The request envelope `MCPRequest`; a `JsonDocument` that was never set is null. -/
structure MCPRequest where
  method : String := ""
  idDoc : JsonVariant := JsonVariant.null
  paramsDoc : JsonVariant := JsonVariant.null

namespace MCPRequest

/-- The accessor `params()`. -/
def params (r : MCPRequest) : JsonVariant := r.paramsDoc

/-- The accessor `id()`. -/
def id (r : MCPRequest) : JsonVariant := r.idDoc

/-- The test `hasParams()`. -/
def hasParams (r : MCPRequest) : Bool := !r.paramsDoc.isNull

end MCPRequest

/-- The response envelope `MCPResponse`; `code` is the HTTP status. -/
structure MCPResponse where
  idDoc : JsonVariant := JsonVariant.null
  resultDoc : JsonVariant := JsonVariant.null
  errorDoc : JsonVariant := JsonVariant.null
  code : Int := 200

namespace MCPResponse

/-- The constructor `MCPResponse(code, id)`. -/
def create (code : Int) (id : JsonVariant) : MCPResponse :=
  { idDoc := id, code := code }

/-- The accessor `id()`. -/
def id (r : MCPResponse) : JsonVariant := r.idDoc

/-- The accessor `result()`. -/
def result (r : MCPResponse) : JsonVariant := r.resultDoc

/-- The accessor `error()`. -/
def error (r : MCPResponse) : JsonVariant := r.errorDoc

/-- The test `hasResult()`. -/
def hasResult (r : MCPResponse) : Bool := !r.resultDoc.isNull

/-- The test `hasError()`. -/
def hasError (r : MCPResponse) : Bool := !r.errorDoc.isNull

end MCPResponse

/-- The JSON-RPC error codes of `enum class ErrorCode`. -/
inductive ErrorCode where
  | SERVER_ERROR
  | INVALID_REQUEST
  | METHOD_NOT_FOUND
  | INVALID_PARAMS
  | INTERNAL_ERROR
  | PARSE_ERROR
deriving DecidableEq, Repr

/-- The cast `static_cast<int>(code)`. -/
def ErrorCode.toInt : ErrorCode → Int
  | .SERVER_ERROR => -32000
  | .INVALID_REQUEST => -32600
  | .METHOD_NOT_FOUND => -32601
  | .INVALID_PARAMS => -32602
  | .INTERNAL_ERROR => -32603
  | .PARSE_ERROR => -32700

/-- The constant `PROTOCOL_VERSION`. -/
def PROTOCOL_VERSION : String := "2024-11-05"

/-- The constant `DEFAULT_SERVER_NAME`. -/
def DEFAULT_SERVER_NAME : String := "ESP32-MCP-Server"

/-- The constant `DEFAULT_SERVER_VERSION`. -/
def DEFAULT_SERVER_VERSION : String := "1.0.0"

/-! ## Schema nodes -/

/-- The class `Properties`: one JSON-Schema-like node. The `std::map` of
child properties is its list of entries in key order; `items` is the owned
optional child. -/
structure Properties where
  type : String
  title : String
  description : String
  properties : List (String × Properties)
  required : List String
  additionalProperties : Bool
  hasAdditionalProperties : Bool
  items : Option Properties
  enumValues : List String
  oneOf : List Properties
  anyOf : List Properties
  allOf : List Properties
  format : String
  defaultValue : String

/-- The default constructor `Properties()`: every text and collection empty,
no items child, `additionalProperties` true and not explicitly set. -/
def Properties.blank : Properties :=
  { type := "", title := "", description := "", properties := [], required := [],
    additionalProperties := true, hasAdditionalProperties := false, items := none,
    enumValues := [], oneOf := [], anyOf := [], allOf := [], format := "", defaultValue := "" }

/-- The loop `for (value : values) array.add(value)` over a vector of strings. -/
def addStrings : List String → JsonVariant → JsonVariant
  | [], array => array
  | s :: rest, array => addStrings rest (array.addElement (JsonVariant.string s))

mutual
/-- The method `Properties::toJson(obj)`: writes the node into the object
`obj` and returns the updated object. -/
def Properties.toJson : Properties → JsonVariant → JsonVariant
  | ⟨type, title, description, properties, required, additionalProperties,
      hasAdditionalProperties, items, enumValues, oneOf, anyOf, allOf, format, defaultValue⟩,
    obj =>
    let obj := obj.setMember "type" (JsonVariant.string type)
    let obj := if title.length > 0 then obj.setMember "title" (JsonVariant.string title) else obj
    let obj :=
      if description.length > 0 then obj.setMember "description" (JsonVariant.string description)
      else obj
    let obj :=
      if !properties.isEmpty then
        obj.setMember "properties" (propertiesToJson properties (JsonVariant.object []))
      else obj
    let obj :=
      if !required.isEmpty then
        obj.setMember "required" (addStrings required (JsonVariant.array []))
      else obj
    let obj :=
      if hasAdditionalProperties then
        obj.setMember "additionalProperties" (JsonVariant.boolean additionalProperties)
      else obj
    let obj :=
      match items with
      | some child => obj.setMember "items" (Properties.toJson child (JsonVariant.object []))
      | none => obj
    let obj :=
      if !enumValues.isEmpty then
        obj.setMember "enum" (addStrings enumValues (JsonVariant.array []))
      else obj
    let obj :=
      if !oneOf.isEmpty then obj.setMember "oneOf" (schemasToJson oneOf (JsonVariant.array []))
      else obj
    let obj :=
      if !anyOf.isEmpty then obj.setMember "anyOf" (schemasToJson anyOf (JsonVariant.array []))
      else obj
    let obj :=
      if !allOf.isEmpty then obj.setMember "allOf" (schemasToJson allOf (JsonVariant.array []))
      else obj
    let obj := if format.length > 0 then obj.setMember "format" (JsonVariant.string format) else obj
    let obj :=
      if defaultValue.length > 0 then obj.setMember "default" (JsonVariant.string defaultValue)
      else obj
    obj
/-- The loop over the `properties` map: each child is written into a fresh
object stored under its key. -/
def propertiesToJson : List (String × Properties) → JsonVariant → JsonVariant
  | [], propertiesObj => propertiesObj
  | (key, value) :: rest, propertiesObj =>
    propertiesToJson rest
      (propertiesObj.setMember key (Properties.toJson value (JsonVariant.object [])))
/-- The loop over a vector of schemas: each is written into a fresh object
appended to the array. -/
def schemasToJson : List Properties → JsonVariant → JsonVariant
  | [], array => array
  | schema :: rest, array =>
    schemasToJson rest (array.addElement (Properties.toJson schema (JsonVariant.object [])))
end

mutual
/-- The copy constructor and copy assignment of `Properties`: every field is
copied, the child nodes by the same deep copy. -/
def Properties.copy : Properties → Properties
  | ⟨type, title, description, properties, required, additionalProperties,
      hasAdditionalProperties, items, enumValues, oneOf, anyOf, allOf, format, defaultValue⟩ =>
    { type := type
      title := title
      description := description
      properties := copyProperties properties
      required := required
      additionalProperties := additionalProperties
      hasAdditionalProperties := hasAdditionalProperties
      items :=
        match items with
        | some child => some (Properties.copy child)
        | none => none
      enumValues := enumValues
      oneOf := copySchemas oneOf
      anyOf := copySchemas anyOf
      allOf := copySchemas allOf
      format := format
      defaultValue := defaultValue }
/-- The copy of a `std::map` of child properties, entry by entry. -/
def copyProperties : List (String × Properties) → List (String × Properties)
  | [] => []
  | (key, value) :: rest => (key, Properties.copy value) :: copyProperties rest
/-- The copy of a `std::vector` of schemas, element by element. -/
def copySchemas : List Properties → List Properties
  | [] => []
  | schema :: rest => Properties.copy schema :: copySchemas rest
end

/-- The method `Properties::toString()`. -/
def Properties.toString (lib : ArduinoJson) (p : Properties) : String :=
  serializeJson lib (p.toJson (JsonVariant.object []))

/-! ## C strings -/

/-- The text that a reader of the C string `s.c_str()` sees, as the
constructor `String(const char*)` and the `std::string` concatenation with a
`const char*` do: the characters of `s` before its first NUL, all of `s` when
it has none. -/
def c_str (s : String) : String :=
  String.mk (s.data.takeWhile (fun c => c != Char.ofNat 0))

/-! ## Tools and the registry -/

/-- The capability `ToolHandler::call`: a result document, or a failure
(a C++ exception carrying a message). -/
abbrev ToolHandler := JsonVariant → Except String JsonVariant

/-- The class `Tool`; an unbound (null) `handler` pointer is `none`. -/
structure Tool where
  name : String
  description : String
  inputSchema : Properties
  outputSchema : Properties
  handler : Option ToolHandler

/-- The defaulted copy of a `Tool`: member by member, the schemas by their
deep copy, the handler pointer shared. -/
def Tool.copy (tool : Tool) : Tool :=
  { name := tool.name, description := tool.description,
    inputSchema := tool.inputSchema.copy, outputSchema := tool.outputSchema.copy,
    handler := tool.handler }

/-- The assignment `map[key] = value` on a `std::map` with string keys, kept
as its entries in ascending key order: the value of an equal key is replaced,
a new key is inserted at its place in the order. -/
def mapAssign {α : Type} (key : String) (value : α) : List (String × α) → List (String × α)
  | [] => [(key, value)]
  | (k, v) :: rest =>
    if key < k then (key, value) :: (k, v) :: rest
    else if k < key then (k, v) :: mapAssign key value rest
    else (k, value) :: rest

/-- The lookup `map.find(key)`: the value stored under `key`, if any. -/
def mapFind {α : Type} (key : String) : List (String × α) → Option α
  | [] => none
  | (k, v) :: rest => if k = key then some v else mapFind key rest

/-- The state of the class `MCPServer` that the protocol core reads: the tool
registry and the three configured strings. -/
structure MCPServer where
  tools : List (String × Tool)
  serverName : String
  serverVersion : String
  serverInstructions : String

/-- One handler invocation: the registry key of the tool and the argument
document passed to `call`. -/
abbrev Invocation := String × JsonVariant

/-- What a dispatch does: the handler invocations it performed, in order,
and what it returned: a response, or the handler failure that escaped. -/
structure Outcome where
  invoked : List Invocation
  returned : Except String MCPResponse

/-- A dispatch that returns `response` without calling any handler. -/
def Outcome.respond (response : MCPResponse) : Outcome :=
  { invoked := [], returned := Except.ok response }

namespace MCPServer

/-- The constructor `MCPServer(port, name, version, instructions)`: an empty
registry and the configured strings (the listener is not modelled). -/
def create (name : String) (version : String) (instructions : String) : MCPServer :=
  { tools := [], serverName := name, serverVersion := version,
    serverInstructions := instructions }

/-- The method `RegisterTool(tool)`: `tools[tool.name] = tool`. -/
def RegisterTool (self : MCPServer) (tool : Tool) : MCPServer :=
  { self with tools := mapAssign tool.name tool.copy self.tools }

/-- A sequence of `RegisterTool` calls, first to last. -/
def registerAll (self : MCPServer) (registered : List Tool) : MCPServer :=
  registered.foldl RegisterTool self

/-- The method `parseRequest(json)`. -/
def parseRequest (lib : ArduinoJson) (json : String) : MCPRequest :=
  match lib.deserializeJson json with
  | Except.error _ => { method := "" }
  | Except.ok doc =>
    { method := asStdString lib (doc.getMember "method"),
      idDoc := doc.getMember "id",
      paramsDoc := doc.getMember "params" }

/-- The document built by `serializeResponse` before it is written as text. -/
def responseDocument (response : MCPResponse) : JsonVariant :=
  let doc := JsonVariant.null
  let doc := doc.setMember "id" response.id
  let doc := doc.setMember "jsonrpc" (JsonVariant.string "2.0")
  let doc := if response.hasResult then doc.setMember "result" response.result else doc
  let doc := if response.hasError then doc.setMember "error" response.error else doc
  doc

/-- The method `serializeResponse(response)`. -/
def serializeResponse (lib : ArduinoJson) (response : MCPResponse) : String :=
  serializeJson lib (responseDocument response)

/-- The method `createJSONRPCError(httpCode, code, id, message)`. -/
def createJSONRPCError (httpCode : Int) (code : Int) (id : JsonVariant) (message : String) :
    MCPResponse :=
  let response := MCPResponse.create httpCode id
  let errorDoc := response.errorDoc.setMember "code" (JsonVariant.integer code)
  let errorDoc := errorDoc.setMember "message" (JsonVariant.string message)
  { response with errorDoc := errorDoc }

/-- The method `handleInitialize(request)`. -/
def handleInitialize (self : MCPServer) (request : MCPRequest) : MCPResponse :=
  let response := MCPResponse.create 200 request.id
  let result := JsonVariant.object []
  let result := result.setMember "protocolVersion" (JsonVariant.string PROTOCOL_VERSION)
  let experimental := JsonVariant.object []
  let capabilities := (JsonVariant.object []).setMember "experimental" experimental
  let tools := (JsonVariant.object []).setMember "listChanged" (JsonVariant.boolean false)
  let capabilities := capabilities.setMember "tools" tools
  let result := result.setMember "capabilities" capabilities
  let serverInfo := (JsonVariant.object []).setMember "name" (JsonVariant.string self.serverName)
  let serverInfo := serverInfo.setMember "version" (JsonVariant.string self.serverVersion)
  let result := result.setMember "serverInfo" serverInfo
  let result :=
    if self.serverInstructions.length > 0 then
      result.setMember "instructions" (JsonVariant.string self.serverInstructions)
    else result
  { response with resultDoc := result }

/-- The method `handleInitialized(request)`. -/
def handleInitialized (_self : MCPServer) (request : MCPRequest) : MCPResponse :=
  MCPResponse.create 202 request.id

/-- The body of the loop of `handleToolsList`: the object appended for one
registry entry. -/
def toolEntry (key : String) (value : Tool) : JsonVariant :=
  let tool := JsonVariant.object []
  let tool := tool.setMember "name" (JsonVariant.string key)
  let tool := tool.setMember "description" (JsonVariant.string value.description)
  let tool := tool.setMember "inputSchema" (value.inputSchema.toJson (JsonVariant.object []))
  let tool :=
    if value.outputSchema.type.length > 0 then
      tool.setMember "outputSchema" (value.outputSchema.toJson (JsonVariant.object []))
    else tool
  tool

/-- The loop of `handleToolsList` over the registry, in key order. -/
def addTools : List (String × Tool) → JsonVariant → JsonVariant
  | [], toolsArray => toolsArray
  | (key, value) :: rest, toolsArray => addTools rest (toolsArray.addElement (toolEntry key value))

/-- The method `handleToolsList(request)`. -/
def handleToolsList (self : MCPServer) (request : MCPRequest) : MCPResponse :=
  let response := MCPResponse.create 200 request.id
  let toolsArray := addTools self.tools (JsonVariant.array [])
  let result := (JsonVariant.object []).setMember "tools" toolsArray
  { response with resultDoc := result }

/-- The method `handleFunctionCalls(request)`. -/
def handleFunctionCalls (lib : ArduinoJson) (self : MCPServer) (request : MCPRequest) : Outcome :=
  let mcpResponse := MCPResponse.create 200 request.id
  let params := request.params
  if !(params.getMember "name").isString then
    Outcome.respond
      (createJSONRPCError 200 ErrorCode.INVALID_PARAMS.toInt request.id
        "Missing or invalid 'name' parameter")
  else
    let functionName := asStdString lib (params.getMember "name")
    let arguments := params.getMember "arguments"
    let result := JsonVariant.object []
    let content := JsonVariant.array []
    -- `String functionNameStr = String(functionName.c_str())`
    let functionNameStr := c_str functionName
    match mapFind functionNameStr self.tools with
    | some tool =>
      match tool.handler with
      | some handler =>
        let argsDoc := arguments
        match handler argsDoc with
        | Except.ok resultDoc =>
          let resultText := serializeJson lib resultDoc
          let textContent := (JsonVariant.object []).setMember "type" (JsonVariant.string "text")
          let textContent := textContent.setMember "text" (JsonVariant.string resultText)
          let content := content.addElement textContent
          let result := result.setMember "content" content
          { invoked := [(functionNameStr, argsDoc)],
            returned := Except.ok { mcpResponse with resultDoc := result } }
        | Except.error failure =>
          { invoked := [(functionNameStr, argsDoc)], returned := Except.error failure }
      | none =>
        Outcome.respond
          (createJSONRPCError 200 ErrorCode.INTERNAL_ERROR.toInt request.id
            ("Tool handler not initialized: " ++ c_str functionNameStr))
    | none =>
      Outcome.respond
        (createJSONRPCError 200 ErrorCode.METHOD_NOT_FOUND.toInt request.id
          ("Method not supported: " ++ c_str functionNameStr))

/-- The method `handle(request)`: the dispatcher. -/
def handle (lib : ArduinoJson) (self : MCPServer) (request : MCPRequest) : Outcome :=
  if request.method = "" then
    Outcome.respond
      (createJSONRPCError 400 ErrorCode.PARSE_ERROR.toInt request.id "Parse error: Invalid JSON")
  else if request.method = "initialize" then
    Outcome.respond (handleInitialize self request)
  else if request.method = "tools/list" then
    Outcome.respond (handleToolsList self request)
  else if request.method = "notifications/initialized" then
    Outcome.respond (handleInitialized self request)
  else if request.method = "tools/call" then
    handleFunctionCalls lib self request
  else
    Outcome.respond
      (createJSONRPCError 200 ErrorCode.METHOD_NOT_FOUND.toInt request.id
        ("Method not found: " ++ request.method))

end MCPServer

/-! ## A small decoder

An instance of `ArduinoJson` used to evaluate the dispatcher on concrete
request texts. It reads the first JSON value of the text: objects, arrays,
strings with the short escapes, integers and the three literals. -/

namespace Sample

/-- Blank, tab, line feed or carriage return. -/
def isSpace (c : Char) : Bool :=
  c = Char.ofNat 32 || c = Char.ofNat 9 || c = Char.ofNat 10 || c = Char.ofNat 13

/-- Drop leading white space. -/
def skipSpaces : List Char → List Char
  | [] => []
  | c :: cs => if isSpace c then skipSpaces cs else c :: cs

/-- Split off the leading decimal digits. -/
def splitDigits : List Char → List Char × List Char
  | [] => ([], [])
  | c :: cs =>
    if c.isDigit then ((c :: (splitDigits cs).1), (splitDigits cs).2) else ([], c :: cs)

/-- The number written by a list of decimal digits. -/
def digitsValue (digits : List Char) : Nat :=
  digits.foldl (fun acc c => 10 * acc + (c.toNat - 48)) 0

/-- The character an escape letter stands for. -/
def unescape (c : Char) : Option Char :=
  if c = Char.ofNat 34 then some (Char.ofNat 34)
  else if c = Char.ofNat 92 then some (Char.ofNat 92)
  else if c = Char.ofNat 47 then some (Char.ofNat 47)
  else if c = Char.ofNat 98 then some (Char.ofNat 8)
  else if c = Char.ofNat 102 then some (Char.ofNat 12)
  else if c = Char.ofNat 110 then some (Char.ofNat 10)
  else if c = Char.ofNat 114 then some (Char.ofNat 13)
  else if c = Char.ofNat 116 then some (Char.ofNat 9)
  else none

/-- Read the body of a quoted string up to its closing quote; `acc` holds the
characters read so far, last first. -/
def readQuoted : List Char → List Char → Option (String × List Char)
  | [], _ => none
  | [c], acc => if c = Char.ofNat 34 then some (String.mk acc.reverse, []) else none
  | c :: d :: rest, acc =>
    if c = Char.ofNat 34 then some (String.mk acc.reverse, d :: rest)
    else if c = Char.ofNat 92 then
      match unescape d with
      | some ch => readQuoted rest (ch :: acc)
      | none => none
    else readQuoted (d :: rest) (c :: acc)

/-- Read an integer or one of the literals `null`, `true`, `false`. -/
def readScalar (cs : List Char) : Except DeserializationError (JsonVariant × List Char) :=
  if cs.take 4 = "null".data then Except.ok (JsonVariant.null, cs.drop 4)
  else if cs.take 4 = "true".data then Except.ok (JsonVariant.boolean true, cs.drop 4)
  else if cs.take 5 = "false".data then Except.ok (JsonVariant.boolean false, cs.drop 5)
  else
    match cs with
    | [] => Except.error DeserializationError.IncompleteInput
    | c :: rest =>
      if c = Char.ofNat 45 then
        match splitDigits rest with
        | ([], _) => Except.error DeserializationError.InvalidInput
        | (digits, after) => Except.ok (JsonVariant.integer (-(digitsValue digits : Int)), after)
      else
        match splitDigits (c :: rest) with
        | ([], _) => Except.error DeserializationError.InvalidInput
        | (digits, after) => Except.ok (JsonVariant.integer (digitsValue digits), after)

mutual
/-- Read one value; `fuel` bounds the number of nested reads. -/
def readVariant : Nat → List Char → Except DeserializationError (JsonVariant × List Char)
  | 0, _ => Except.error DeserializationError.TooDeep
  | fuel + 1, cs =>
    match skipSpaces cs with
    | [] => Except.error DeserializationError.IncompleteInput
    | c :: rest =>
      if c = Char.ofNat 91 then
        match skipSpaces rest with
        | [] => Except.error DeserializationError.IncompleteInput
        | d :: rest2 =>
          if d = Char.ofNat 93 then Except.ok (JsonVariant.array [], rest2)
          else readElements fuel (JsonVariant.array []) (d :: rest2)
      else if c = Char.ofNat 123 then
        match skipSpaces rest with
        | [] => Except.error DeserializationError.IncompleteInput
        | d :: rest2 =>
          if d = Char.ofNat 125 then Except.ok (JsonVariant.object [], rest2)
          else readMembers fuel (JsonVariant.object []) (d :: rest2)
      else if c = Char.ofNat 34 then
        match readQuoted rest [] with
        | some (s, after) => Except.ok (JsonVariant.string s, after)
        | none => Except.error DeserializationError.IncompleteInput
      else readScalar (c :: rest)
/-- Read the elements of an array after its opening bracket. -/
def readElements :
    Nat → JsonVariant → List Char → Except DeserializationError (JsonVariant × List Char)
  | 0, _, _ => Except.error DeserializationError.TooDeep
  | fuel + 1, array, cs =>
    match readVariant fuel cs with
    | Except.error e => Except.error e
    | Except.ok (value, after) =>
      match skipSpaces after with
      | [] => Except.error DeserializationError.IncompleteInput
      | c :: rest =>
        if c = Char.ofNat 44 then readElements fuel (array.addElement value) rest
        else if c = Char.ofNat 93 then Except.ok (array.addElement value, rest)
        else Except.error DeserializationError.InvalidInput
/-- Read the members of an object after its opening brace. -/
def readMembers :
    Nat → JsonVariant → List Char → Except DeserializationError (JsonVariant × List Char)
  | 0, _, _ => Except.error DeserializationError.TooDeep
  | fuel + 1, object, cs =>
    match skipSpaces cs with
    | [] => Except.error DeserializationError.IncompleteInput
    | q :: rest =>
      if q = Char.ofNat 34 then
        match readQuoted rest [] with
        | none => Except.error DeserializationError.IncompleteInput
        | some (key, after) =>
          match skipSpaces after with
          | [] => Except.error DeserializationError.IncompleteInput
          | colon :: rest2 =>
            if colon = Char.ofNat 58 then
              match readVariant fuel rest2 with
              | Except.error e => Except.error e
              | Except.ok (value, after2) =>
                match skipSpaces after2 with
                | [] => Except.error DeserializationError.IncompleteInput
                | c :: rest3 =>
                  if c = Char.ofNat 44 then readMembers fuel (object.setMember key value) rest3
                  else if c = Char.ofNat 125 then Except.ok (object.setMember key value, rest3)
                  else Except.error DeserializationError.InvalidInput
            else Except.error DeserializationError.InvalidInput
      else Except.error DeserializationError.InvalidInput
end

/-- Decode the first JSON value of a text. -/
def deserialize (text : String) : Except DeserializationError JsonVariant :=
  match skipSpaces text.data with
  | [] => Except.error DeserializationError.EmptyInput
  | cs =>
    match readVariant (2 * cs.length + 2) cs with
    | Except.ok (value, _) => Except.ok value
    | Except.error e => Except.error e

/-- The small decoder as a library instance; it produces no floating-point
value, and renders one as its bit pattern in decimal. -/
def json : ArduinoJson :=
  { deserializeJson := deserialize
    writeFloat := fun bits => toString bits
    emptyInput := rfl }

end Sample

/-! ## Vocabulary of the statements -/

/-- The tools/call route of `request` reaches a registered tool whose bound
handler fails with `failure` on the request's arguments; the registry is
searched for the requested name as a C string. -/
def HandlerFails (self : MCPServer) (request : MCPRequest) (failure : String) : Prop :=
  request.method = "tools/call" ∧
    ∃ name tool handler,
      request.params.getMember "name" = JsonVariant.string name ∧
      mapFind (c_str name) self.tools = some tool ∧
      tool.handler = some handler ∧
      handler (request.params.getMember "arguments") = Except.error failure

/-- The JSON-RPC code stored in a response's error object. -/
def errorCode (response : MCPResponse) : JsonVariant :=
  response.error.getMember "code"

/-- A server with an empty registry, used in the examples. -/
def demoServer : MCPServer :=
  MCPServer.create DEFAULT_SERVER_NAME DEFAULT_SERVER_VERSION ""

/-- A tool with blank schemas, the given name and the given handler. -/
def demoTool (name : String) (handler : Option ToolHandler) : Tool :=
  { name := name, description := "", inputSchema := Properties.blank,
    outputSchema := Properties.blank, handler := handler }

/-- The handler that returns its input unchanged. -/
def echoHandler : ToolHandler := fun arguments => Except.ok arguments

/-- A handler that fails on every input. -/
def failingHandler : ToolHandler := fun _ => Except.error "sensor unavailable"

/-- A request text with a numeric id and an unknown method. -/
def pingText : String := "\x7b\"jsonrpc\":\"2.0\",\"id\":42,\"method\":\"ping\"\x7d"

/-- A tools/call request envelope for the tool `name` with the given arguments. -/
def callRequest (name : JsonVariant) (arguments : JsonVariant) : MCPRequest :=
  { method := "tools/call", idDoc := JsonVariant.integer 7,
    paramsDoc := JsonVariant.object [("name", name), ("arguments", arguments)] }

/-- A server whose only tool, `echo`, returns its arguments unchanged. -/
def echoServer : MCPServer :=
  demoServer.RegisterTool (demoTool "echo" (some echoHandler))

/-- The tools/call request of the echo scenario: arguments `{"x":1}`. -/
def echoRequest : MCPRequest :=
  callRequest (JsonVariant.string "echo")
    (JsonVariant.object [("x", JsonVariant.integer 1)])

/-- The echo scenario as a request text, with a string id. -/
def echoText : String :=
  "\x7b\"jsonrpc\":\"2.0\",\"id\":\"a-1\",\"method\":\"tools/call\"," ++
    "\"params\":\x7b\"name\":\"echo\",\"arguments\":\x7b\"x\":1\x7d\x7d\x7d"

/-- The response of the echo scenario. -/
def echoResponse : MCPResponse :=
  { idDoc := JsonVariant.string "a-1",
    resultDoc := JsonVariant.object
      [("content", JsonVariant.array
        [JsonVariant.object
          [("type", JsonVariant.string "text"),
            ("text", JsonVariant.string "\x7b\"x\":1\x7d")]])],
    code := 200 }

/-- A server whose only tool, `boom`, has a handler that always fails. -/
def boomServer : MCPServer :=
  demoServer.RegisterTool (demoTool "boom" (some failingHandler))

/-- A tools/call request for the tool `boom`. -/
def boomRequest : MCPRequest :=
  callRequest (JsonVariant.string "boom") JsonVariant.null

/-- A tools/call request for the name `echo\u0000x`: the four letters of
`echo`, a NUL character and the letter x. -/
def nulRequest : MCPRequest :=
  callRequest (JsonVariant.string "echo\x00x")
    (JsonVariant.object [("x", JsonVariant.integer 1)])

/-- A server whose only tool, `idle`, has no handler bound. -/
def idleServer : MCPServer :=
  demoServer.RegisterTool (demoTool "idle" none)

/-- A tools/call request for the tool `idle`. -/
def idleRequest : MCPRequest :=
  callRequest (JsonVariant.string "idle") JsonVariant.null

/-- A tools/call request without params. -/
def bareCallRequest : MCPRequest :=
  { method := "tools/call", idDoc := JsonVariant.string "r-1" }

/-- A tools/list request envelope. -/
def listRequest : MCPRequest :=
  { method := "tools/list", idDoc := JsonVariant.integer 1 }

/-- An initialize request envelope. -/
def initRequest : MCPRequest :=
  { method := "initialize", idDoc := JsonVariant.integer 0,
    paramsDoc := JsonVariant.object [("protocolVersion", JsonVariant.string "2024-11-05")] }

/-- Three registrations, two of them under the name `echo`. -/
def demoTools : List Tool :=
  [demoTool "echo" (some echoHandler), demoTool "idle" none, demoTool "echo" none]

/-- A server constructed with instructions. -/
def guidedServer : MCPServer :=
  MCPServer.create "thermo" "2.1.0" "Call read_temp first."

/-- A `notifications/initialized` request envelope. -/
def notifyRequest : MCPRequest :=
  { method := "notifications/initialized", idDoc := JsonVariant.integer 3,
    paramsDoc := JsonVariant.object [("ready", JsonVariant.boolean true)] }

/-- A valid request text with an id and an empty `method`. -/
def emptyMethodText : String := "\x7b\"id\":5,\"method\":\"\"\x7d"

/-- A valid request text with an id and no `method`. -/
def noMethodText : String := "\x7b\"id\":5\x7d"

/-- A valid request text whose top-level value is an array. -/
def arrayText : String := "[1,2]"

/-- The member written for a field that is emitted only when `present` holds. -/
def optionalMember (present : Prop) [Decidable present] (key : String)
    (value : JsonVariant) : List (String × JsonVariant) :=
  if present then [(key, value)] else []

/-- The `items` member, written when the node has an items child. -/
def itemsMember (items : Option Properties) : List (String × JsonVariant) :=
  match items with
  | some child => [("items", child.toJson (JsonVariant.object []))]
  | none => []

/-- The members that `Properties::toJson` writes into an empty object, in the
order of the statements of its body; the values of the nested fields are the
ones the loops of `toJson` build. -/
def schemaMembers (p : Properties) : List (String × JsonVariant) :=
  ("type", JsonVariant.string p.type) ::
  (optionalMember (p.title.length > 0) "title" (JsonVariant.string p.title) ++
  (optionalMember (p.description.length > 0) "description" (JsonVariant.string p.description) ++
  (optionalMember (!p.properties.isEmpty) "properties"
    (propertiesToJson p.properties (JsonVariant.object [])) ++
  (optionalMember (!p.required.isEmpty) "required"
    (addStrings p.required (JsonVariant.array [])) ++
  (optionalMember p.hasAdditionalProperties "additionalProperties"
    (JsonVariant.boolean p.additionalProperties) ++
  (itemsMember p.items ++
  (optionalMember (!p.enumValues.isEmpty) "enum"
    (addStrings p.enumValues (JsonVariant.array [])) ++
  (optionalMember (!p.oneOf.isEmpty) "oneOf" (schemasToJson p.oneOf (JsonVariant.array [])) ++
  (optionalMember (!p.anyOf.isEmpty) "anyOf" (schemasToJson p.anyOf (JsonVariant.array [])) ++
  (optionalMember (!p.allOf.isEmpty) "allOf" (schemasToJson p.allOf (JsonVariant.array [])) ++
  (optionalMember (p.format.length > 0) "format" (JsonVariant.string p.format) ++
  optionalMember (p.defaultValue.length > 0) "default"
    (JsonVariant.string p.defaultValue))))))))))))

/-- One guarded statement `if (present) obj[key] = value;`. -/
def putIf (present : Prop) [Decidable present] (key : String) (value : JsonVariant)
    (obj : JsonVariant) : JsonVariant :=
  if present then obj.setMember key value else obj

/-- A schema node with a default value. -/
def schemaWithDefault : Properties :=
  { Properties.blank with type := "integer", defaultValue := "5" }

/-- An object schema with one required string property, an explicit
`additionalProperties` and two alternatives. -/
def pointSchema : Properties :=
  { Properties.blank with
    type := "object"
    properties :=
      [("label", { Properties.blank with type := "string", title := "Label" }),
        ("tags", { Properties.blank with
          type := "array"
          items := some { Properties.blank with type := "string", enumValues := ["a", "b"] } })]
    required := ["label"]
    additionalProperties := false
    hasAdditionalProperties := true
    oneOf := [{ Properties.blank with type := "null" }, schemaWithDefault] }

/-- A tool with an input schema and an output schema. -/
def pointTool : Tool :=
  { name := "point", description := "Reads a point", inputSchema := pointSchema,
    outputSchema := schemaWithDefault, handler := some echoHandler }

/-! ## Reading a schema back -/

/-- The text of a string value; empty for every other value. -/
def textOf : JsonVariant → String
  | JsonVariant.string s => s
  | _ => ""

/-- The texts of an array of values; empty for a value that is not an array. -/
def textsOf : JsonVariant → List String
  | JsonVariant.array elements => elements.map textOf
  | _ => []

/-- The boolean of a boolean value; `true`, the default of
`additionalProperties`, for every other value. -/
def flagOf : JsonVariant → Bool
  | JsonVariant.boolean b => b
  | _ => true

mutual
/-- A reader of serialized schema nodes: every field is taken from the member
of the same name (`enum` for enumValues, `default` for defaultValue), a
missing member giving the field's default. -/
def readSchema : JsonVariant → Properties
  | JsonVariant.object members =>
    { type := textOf (JsonVariant.findMember "type" members)
      title := textOf (JsonVariant.findMember "title" members)
      description := textOf (JsonVariant.findMember "description" members)
      properties := readPropertiesMember members
      required := textsOf (JsonVariant.findMember "required" members)
      additionalProperties := flagOf (JsonVariant.findMember "additionalProperties" members)
      hasAdditionalProperties := JsonVariant.hasKey "additionalProperties" members
      items := readItemsMember members
      enumValues := textsOf (JsonVariant.findMember "enum" members)
      oneOf := readSchemasMember "oneOf" members
      anyOf := readSchemasMember "anyOf" members
      allOf := readSchemasMember "allOf" members
      format := textOf (JsonVariant.findMember "format" members)
      defaultValue := textOf (JsonVariant.findMember "default" members) }
  | _ => Properties.blank
/-- The node read from the first member named `items`, if there is one. -/
def readItemsMember : List (String × JsonVariant) → Option Properties
  | [] => none
  | (key, value) :: rest =>
    if key = "items" then some (readSchema value) else readItemsMember rest
/-- The map read from the first member named `properties`. -/
def readPropertiesMember : List (String × JsonVariant) → List (String × Properties)
  | [] => []
  | (key, value) :: rest =>
    if key = "properties" then
      match value with
      | JsonVariant.object entries => readEntries entries
      | _ => []
    else readPropertiesMember rest
/-- The entries of a serialized `properties` object, read one by one. -/
def readEntries : List (String × JsonVariant) → List (String × Properties)
  | [] => []
  | (key, value) :: rest => (key, readSchema value) :: readEntries rest
/-- The nodes read from the first member named `name`, an array of schemas. -/
def readSchemasMember (name : String) : List (String × JsonVariant) → List Properties
  | [] => []
  | (key, value) :: rest =>
    if key = name then
      match value with
      | JsonVariant.array elements => readSchemas elements
      | _ => []
    else readSchemasMember name rest
/-- The elements of a serialized array of schemas, read one by one. -/
def readSchemas : List JsonVariant → List Properties
  | [] => []
  | element :: rest => readSchema element :: readSchemas rest
end

mutual
/-- The node with the stored `additionalProperties` boolean reset to its
default `true` wherever it was never explicitly set, at every depth; all
other fields are kept. -/
def Properties.canonical : Properties → Properties
  | ⟨type, title, description, properties, required, additionalProperties,
      hasAdditionalProperties, items, enumValues, oneOf, anyOf, allOf, format, defaultValue⟩ =>
    { type := type
      title := title
      description := description
      properties := canonicalEntries properties
      required := required
      additionalProperties := if hasAdditionalProperties then additionalProperties else true
      hasAdditionalProperties := hasAdditionalProperties
      items :=
        match items with
        | some child => some (Properties.canonical child)
        | none => none
      enumValues := enumValues
      oneOf := canonicalSchemas oneOf
      anyOf := canonicalSchemas anyOf
      allOf := canonicalSchemas allOf
      format := format
      defaultValue := defaultValue }
/-- The entries of a properties map, each value made canonical. -/
def canonicalEntries : List (String × Properties) → List (String × Properties)
  | [] => []
  | (key, value) :: rest => (key, Properties.canonical value) :: canonicalEntries rest
/-- The schemas of a vector, each made canonical. -/
def canonicalSchemas : List Properties → List Properties
  | [] => []
  | schema :: rest => Properties.canonical schema :: canonicalSchemas rest
end

mutual
/-- The invariant of `std::map` on the `properties` field, at every depth:
the keys of the entries are strictly ascending, so no key occurs twice. -/
def Properties.validMaps : Properties → Bool
  | ⟨_, _, _, properties, _, _, _, items, _, oneOf, anyOf, allOf, _, _⟩ =>
    decide ((properties.map Prod.fst).Pairwise (fun a b => a < b)) &&
    validEntries properties &&
    (match items with
      | some child => Properties.validMaps child
      | none => true) &&
    validSchemas oneOf && validSchemas anyOf && validSchemas allOf
/-- Every value of a properties map satisfies the invariant. -/
def validEntries : List (String × Properties) → Bool
  | [] => true
  | (_, value) :: rest => Properties.validMaps value && validEntries rest
/-- Every schema of a vector satisfies the invariant. -/
def validSchemas : List Properties → Bool
  | [] => true
  | schema :: rest => Properties.validMaps schema && validSchemas rest
end

/-! ## Registries compared -/

/-- Two registries that agree on every key, tool name, description and
handler, entry by entry; the input and output schemas are unconstrained. -/
def sameExceptSchemas (left right : List (String × Tool)) : Prop :=
  List.Forall₂
    (fun (a b : String × Tool) =>
      a.1 = b.1 ∧ a.2.name = b.2.name ∧ a.2.description = b.2.description ∧
        a.2.handler = b.2.handler)
    left right

/-- The echo tool advertised with a strict input schema. -/
def strictEchoTool : Tool :=
  { name := "echo", description := "", inputSchema := pointSchema,
    outputSchema := schemaWithDefault, handler := some echoHandler }

/-- The echo server with the strict schemas in place of the blank ones. -/
def strictEchoServer : MCPServer :=
  demoServer.RegisterTool strictEchoTool

/-- The names of the entries of a `tools` array, in order. -/
def entryNames (elements : List JsonVariant) : List String :=
  elements.map (fun element => textOf (element.getMember "name"))

open JsonVariant MCPServer

/-! ## Copies are exact -/

mutual
theorem properties_copy_eq : ∀ p : Properties, p.copy = p
  | ⟨type, title, description, properties, required, additionalProperties,
      hasAdditionalProperties, none, enumValues, oneOf, anyOf, allOf, format, defaultValue⟩ => by
    simp only [Properties.copy, copyProperties_eq properties, copySchemas_eq oneOf,
      copySchemas_eq anyOf, copySchemas_eq allOf]
  | ⟨type, title, description, properties, required, additionalProperties,
      hasAdditionalProperties, some child, enumValues, oneOf, anyOf, allOf, format,
      defaultValue⟩ => by
    simp only [Properties.copy, copyProperties_eq properties, copySchemas_eq oneOf,
      copySchemas_eq anyOf, copySchemas_eq allOf, properties_copy_eq child]
theorem copyProperties_eq : ∀ entries : List (String × Properties), copyProperties entries = entries
  | [] => rfl
  | (key, value) :: rest => by
    rw [copyProperties, properties_copy_eq value, copyProperties_eq rest]
theorem copySchemas_eq : ∀ schemas : List Properties, copySchemas schemas = schemas
  | [] => rfl
  | schema :: rest => by
    rw [copySchemas, properties_copy_eq schema, copySchemas_eq rest]
end

theorem tool_copy_eq (tool : Tool) : tool.copy = tool := by
  cases tool
  simp [Tool.copy, properties_copy_eq]

/-! ## Facts about documents and envelopes -/

theorem findMember_of_hasKey_false (key : String) (members : List (String × JsonVariant))
    (h : hasKey key members = false) : findMember key members = JsonVariant.null := by
  induction members with
  | nil => rfl
  | cons m rest ih =>
    obtain ⟨k, v⟩ := m
    by_cases hk : k = key
    · simp [hasKey, hk] at h
    · simp only [hasKey, hk, if_false] at h
      simp [findMember, hk, ih h]

theorem length_pos_iff_ne_empty (s : String) : s.length > 0 ↔ s ≠ "" := by
  constructor
  · intro h he
    subst he
    simp at h
  · intro h
    rcases s with ⟨l⟩
    cases l with
    | nil => exact absurd rfl h
    | cons a t => simp [String.length]

theorem createJSONRPCError_eq (httpCode code : Int) (id : JsonVariant) (message : String) :
    createJSONRPCError httpCode code id message =
      { idDoc := id, resultDoc := JsonVariant.null,
        errorDoc := JsonVariant.object
          [("code", JsonVariant.integer code), ("message", JsonVariant.string message)],
        code := httpCode } := rfl

theorem responseDocument_eq (response : MCPResponse) :
    responseDocument response =
      JsonVariant.object
        ([("id", response.idDoc), ("jsonrpc", JsonVariant.string "2.0")] ++
          (if response.hasResult then [("result", response.resultDoc)] else []) ++
          (if response.hasError then [("error", response.errorDoc)] else [])) := by
  cases hr : response.hasResult <;> cases he : response.hasError <;>
    simp [responseDocument, hr, he, setMember, assignMember, MCPResponse.id,
      MCPResponse.result, MCPResponse.error]

theorem responseDocument_id (response : MCPResponse) :
    (responseDocument response).getMember "id" = response.idDoc := by
  rw [responseDocument_eq]
  simp [getMember, findMember]

theorem c_str_idem (s : String) : c_str (c_str s) = c_str s := by
  unfold c_str
  rw [List.takeWhile_takeWhile]
  congr 2
  funext c
  cases (c != Char.ofNat 0) <;> rfl

/-- A text without a NUL character is its own C string. -/
theorem c_str_of_no_nul (s : String) (h : Char.ofNat 0 ∉ s.data) : c_str s = s := by
  have hall : s.data.takeWhile (fun c => c != Char.ofNat 0) = s.data := by
    rw [List.takeWhile_eq_self_iff]
    intro c hc
    simp only [bne_iff_ne, ne_eq]
    rintro rfl
    exact h hc
  simp [c_str, hall]

/-- A C string holds no NUL character. -/
theorem c_str_no_nul (s : String) : Char.ofNat 0 ∉ (c_str s).data := by
  intro h
  have hmem := List.mem_takeWhile_imp h
  simp at hmem

/-! ## The tools/call route, case by case -/

theorem handle_tools_call (lib : ArduinoJson) (self : MCPServer) (request : MCPRequest)
    (hmethod : request.method = "tools/call") :
    handle lib self request = handleFunctionCalls lib self request := by
  simp [handle, hmethod]

theorem handleFunctionCalls_invalid (lib : ArduinoJson) (self : MCPServer) (request : MCPRequest)
    (hname : (request.params.getMember "name").isString = false) :
    handleFunctionCalls lib self request =
      Outcome.respond (createJSONRPCError 200 (-32602) request.id
        "Missing or invalid 'name' parameter") := by
  simp [handleFunctionCalls, hname, ErrorCode.toInt]

theorem handleFunctionCalls_missing (lib : ArduinoJson) (self : MCPServer) (request : MCPRequest)
    (name : String) (hname : request.params.getMember "name" = JsonVariant.string name)
    (hfind : mapFind (c_str name) self.tools = none) :
    handleFunctionCalls lib self request =
      Outcome.respond (createJSONRPCError 200 (-32601) request.id
        ("Method not supported: " ++ c_str name)) := by
  simp [handleFunctionCalls, hname, isString, asStdString, hfind, ErrorCode.toInt, c_str_idem]

theorem handleFunctionCalls_unbound (lib : ArduinoJson) (self : MCPServer) (request : MCPRequest)
    (name : String) (tool : Tool)
    (hname : request.params.getMember "name" = JsonVariant.string name)
    (hfind : mapFind (c_str name) self.tools = some tool) (hhandler : tool.handler = none) :
    handleFunctionCalls lib self request =
      Outcome.respond (createJSONRPCError 200 (-32603) request.id
        ("Tool handler not initialized: " ++ c_str name)) := by
  simp [handleFunctionCalls, hname, isString, asStdString, hfind, hhandler, ErrorCode.toInt,
    c_str_idem]

theorem handleFunctionCalls_returns (lib : ArduinoJson) (self : MCPServer) (request : MCPRequest)
    (name : String) (tool : Tool) (handler : ToolHandler) (value : JsonVariant)
    (hname : request.params.getMember "name" = JsonVariant.string name)
    (hfind : mapFind (c_str name) self.tools = some tool)
    (hhandler : tool.handler = some handler)
    (hcall : handler (request.params.getMember "arguments") = Except.ok value) :
    handleFunctionCalls lib self request =
      { invoked := [(c_str name, request.params.getMember "arguments")],
        returned := Except.ok
          { idDoc := request.idDoc,
            resultDoc := JsonVariant.object
              [("content", JsonVariant.array
                [JsonVariant.object
                  [("type", JsonVariant.string "text"),
                    ("text", JsonVariant.string (serializeJson lib value))]])],
            errorDoc := JsonVariant.null,
            code := 200 } } := by
  simp [handleFunctionCalls, hname, isString, asStdString, hfind, hhandler, hcall,
    MCPResponse.create, MCPRequest.id, setMember, assignMember, addElement]

theorem handleFunctionCalls_fails (lib : ArduinoJson) (self : MCPServer) (request : MCPRequest)
    (name : String) (tool : Tool) (handler : ToolHandler) (failure : String)
    (hname : request.params.getMember "name" = JsonVariant.string name)
    (hfind : mapFind (c_str name) self.tools = some tool)
    (hhandler : tool.handler = some handler)
    (hcall : handler (request.params.getMember "arguments") = Except.error failure) :
    handleFunctionCalls lib self request =
      { invoked := [(c_str name, request.params.getMember "arguments")],
        returned := Except.error failure } := by
  simp [handleFunctionCalls, hname, isString, asStdString, hfind, hhandler, hcall]

theorem isString_false_or (v : JsonVariant) :
    v.isString = false ∨ ∃ s, v = JsonVariant.string s := by
  cases v <;> simp [isString]

/-- Every dispatch either returns a response that carries the request's id,
or is a tools/call whose bound handler failed, the failure escaping. -/
theorem handle_id_or_failure (lib : ArduinoJson) (self : MCPServer) (request : MCPRequest) :
    (∃ response, (handle lib self request).returned = Except.ok response ∧
        response.idDoc = request.idDoc) ∨
    (∃ failure, HandlerFails self request failure ∧
        (handle lib self request).returned = Except.error failure) := by
  by_cases hcall : request.method = "tools/call"
  · rw [handle_tools_call lib self request hcall]
    rcases isString_false_or (request.params.getMember "name") with hname | ⟨name, hname⟩
    · left
      rw [handleFunctionCalls_invalid lib self request hname]
      exact ⟨_, rfl, rfl⟩
    · cases hfind : mapFind (c_str name) self.tools with
      | none =>
        left
        rw [handleFunctionCalls_missing lib self request name hname hfind]
        exact ⟨_, rfl, rfl⟩
      | some tool =>
        cases hhandler : tool.handler with
        | none =>
          left
          rw [handleFunctionCalls_unbound lib self request name tool hname hfind hhandler]
          exact ⟨_, rfl, rfl⟩
        | some handler =>
          cases hres : handler (request.params.getMember "arguments") with
          | ok value =>
            left
            rw [handleFunctionCalls_returns lib self request name tool handler value hname
              hfind hhandler hres]
            exact ⟨_, rfl, rfl⟩
          | error failure =>
            right
            rw [handleFunctionCalls_fails lib self request name tool handler failure hname
              hfind hhandler hres]
            exact ⟨failure, ⟨hcall, name, tool, handler, hname, hfind, hhandler, hres⟩, rfl⟩
  · left
    unfold handle
    split_ifs <;> exact ⟨_, rfl, rfl⟩

theorem parseRequest_ok (lib : ArduinoJson) (text : String) (doc : JsonVariant)
    (hparse : lib.deserializeJson text = Except.ok doc) :
    parseRequest lib text =
      { method := asStdString lib (doc.getMember "method"),
        idDoc := doc.getMember "id", paramsDoc := doc.getMember "params" } := by
  simp [parseRequest, hparse]

theorem parseRequest_error (lib : ArduinoJson) (text : String) (e : DeserializationError)
    (hparse : lib.deserializeJson text = Except.error e) :
    parseRequest lib text = { method := "" } := by
  simp [parseRequest, hparse]

/-! ## Id fidelity and parse failures -/

/-- The response text for `pingText`: the id is the number 42, not a string. -/
theorem ping_response_text :
    (handle Sample.json demoServer (parseRequest Sample.json pingText)).returned =
      Except.ok (createJSONRPCError 200 (-32601) (JsonVariant.integer 42)
        "Method not found: ping") ∧
    serializeResponse Sample.json
        (createJSONRPCError 200 (-32601) (JsonVariant.integer 42) "Method not found: ping") =
      "\x7b\"id\":42,\"jsonrpc\":\"2.0\",\"error\":\x7b\"code\":-32601,\"message\":\"Method not found: ping\"\x7d\x7d" :=
  ⟨rfl, rfl⟩

/-- C2. For every body that fails to deserialize, the empty body included,
and every registry, parseRequest followed by handle calls no handler and
returns a response with HTTP status 400, error code -32700, no result, and
id null. -/
theorem malformed_body_parse_error (lib : ArduinoJson) (self : MCPServer) (body : String)
    (hfail : body = "" ∨ ∃ e, lib.deserializeJson body = Except.error e) :
    ∃ response,
      (handle lib self (parseRequest lib body)).returned = Except.ok response ∧
      (handle lib self (parseRequest lib body)).invoked = [] ∧
      response.code = 400 ∧
      errorCode response = JsonVariant.integer (-32700) ∧
      ErrorCode.PARSE_ERROR.toInt = -32700 ∧
      response.hasError = true ∧
      response.hasResult = false ∧
      response.id = JsonVariant.null := by
  have herr : ∃ e, lib.deserializeJson body = Except.error e := by
    rcases hfail with hempty | h
    · exact ⟨_, hempty ▸ lib.emptyInput⟩
    · exact h
  obtain ⟨e, he⟩ := herr
  rw [parseRequest_error lib body e he]
  exact ⟨_, rfl, rfl, rfl, rfl, rfl, rfl, rfl, rfl⟩

/-- C2 at the truncated body `{"jsonrpc"`. -/
theorem malformed_body_parse_error_witness :
    ("\x7b\"jsonrpc\"" = "" ∨
      ∃ e, Sample.json.deserializeJson "\x7b\"jsonrpc\"" = Except.error e) ∧
    ∃ response,
      (handle Sample.json echoServer (parseRequest Sample.json "\x7b\"jsonrpc\"")).returned =
        Except.ok response ∧
      (handle Sample.json echoServer (parseRequest Sample.json "\x7b\"jsonrpc\"")).invoked = [] ∧
      response.code = 400 ∧
      errorCode response = JsonVariant.integer (-32700) ∧
      ErrorCode.PARSE_ERROR.toInt = -32700 ∧
      response.hasError = true ∧
      response.hasResult = false ∧
      response.id = JsonVariant.null :=
  ⟨Or.inr ⟨DeserializationError.IncompleteInput, rfl⟩,
    malformed_body_parse_error Sample.json echoServer "\x7b\"jsonrpc\""
      (Or.inr ⟨DeserializationError.IncompleteInput, rfl⟩)⟩

/-! ## tools/call -/

theorem mapFind_eq_none {α : Type} (key : String) (entries : List (String × α))
    (hkey : ∀ entry ∈ entries, entry.1 ≠ key) : mapFind key entries = none := by
  induction entries with
  | nil => rfl
  | cons e rest ih =>
    obtain ⟨k, v⟩ := e
    have hk : k ≠ key := hkey (k, v) (List.mem_cons_self _ _)
    simp only [mapFind, hk, if_false]
    exact ih (fun entry hmem => hkey entry (List.mem_cons_of_mem _ hmem))

/-- For a name without a NUL character the lookup of its C string is the
lookup of the name. -/
theorem mapFind_c_str_of_no_nul {α : Type} (name : String) (entries : List (String × α))
    (h : Char.ofNat 0 ∉ name.data) :
    mapFind (c_str name) entries = mapFind name entries := by
  rw [c_str_of_no_nul name h]

theorem getMember_of_hasKey_false (v : JsonVariant) (key : String)
    (members : List (String × JsonVariant)) (hv : v = JsonVariant.object members)
    (h : hasKey key members = false) : v.getMember key = JsonVariant.null := by
  subst hv
  exact findMember_of_hasKey_false key members h

/-- C3. When `params.name` is a string that names a registered tool with a
bound handler (the registry holds the tool under the name as the lookup reads
it, `String(name.c_str())`, which is the name itself unless it has an
embedded NUL), and the handler returns `value` on `params.arguments` (null
when the key is absent), handle invokes that handler once and returns HTTP
200 with no error and the result `{"content":[{"type":"text","text":t}]}`
where `t` is the JSON text of `value`. In the echo scenario with arguments
`{"x":1}` the text is `{"x":1}`. -/
theorem tools_call_success (lib : ArduinoJson) (self : MCPServer) (request : MCPRequest)
    (name : String) (tool : Tool) (handler : ToolHandler) (value : JsonVariant)
    (hmethod : request.method = "tools/call")
    (hname : request.params.getMember "name" = JsonVariant.string name)
    (hfind : mapFind (c_str name) self.tools = some tool)
    (hhandler : tool.handler = some handler)
    (hcall : handler (request.params.getMember "arguments") = Except.ok value) :
    (∃ response,
      (handle lib self request).returned = Except.ok response ∧
      (handle lib self request).invoked =
        [(c_str name, request.params.getMember "arguments")] ∧
      response.code = 200 ∧
      response.hasError = false ∧
      response.result =
        JsonVariant.object
          [("content", JsonVariant.array
            [JsonVariant.object
              [("type", JsonVariant.string "text"),
                ("text", JsonVariant.string (serializeJson lib value))]])]) ∧
    (∀ members, request.params = JsonVariant.object members →
      hasKey "arguments" members = false →
      request.params.getMember "arguments" = JsonVariant.null) ∧
    (∃ response,
      (handle lib echoServer echoRequest).returned = Except.ok response ∧
      response.code = 200 ∧
      response.result =
        JsonVariant.object
          [("content", JsonVariant.array
            [JsonVariant.object
              [("type", JsonVariant.string "text"),
                ("text", JsonVariant.string "\x7b\"x\":1\x7d")]])] ∧
      serializeJson lib (JsonVariant.object [("x", JsonVariant.integer 1)]) = "\x7b\"x\":1\x7d") := by
  refine ⟨?_, ?_, ?_⟩
  · rw [handle_tools_call lib self request hmethod,
      handleFunctionCalls_returns lib self request name tool handler value hname hfind
        hhandler hcall]
    exact ⟨_, rfl, rfl, rfl, rfl, rfl⟩
  · intro members hparams hkey
    exact getMember_of_hasKey_false _ _ members hparams hkey
  · exact ⟨_, rfl, rfl, rfl, rfl⟩

/-- C3 at the echo scenario with the small decoder's library instance. -/
theorem tools_call_success_witness :
    (echoRequest.method = "tools/call" ∧
      echoRequest.params.getMember "name" = JsonVariant.string "echo" ∧
      c_str "echo" = "echo" ∧
      mapFind (c_str "echo") echoServer.tools = some (demoTool "echo" (some echoHandler)) ∧
      (demoTool "echo" (some echoHandler)).handler = some echoHandler ∧
      echoHandler (echoRequest.params.getMember "arguments") =
        Except.ok (JsonVariant.object [("x", JsonVariant.integer 1)])) ∧
    ∃ response,
      (handle Sample.json echoServer echoRequest).returned = Except.ok response ∧
      (handle Sample.json echoServer echoRequest).invoked =
        [("echo", echoRequest.params.getMember "arguments")] ∧
      response.code = 200 ∧
      response.hasError = false ∧
      response.result =
        JsonVariant.object
          [("content", JsonVariant.array
            [JsonVariant.object
              [("type", JsonVariant.string "text"),
                ("text", JsonVariant.string
                  (serializeJson Sample.json
                    (JsonVariant.object [("x", JsonVariant.integer 1)])))]])] :=
  ⟨⟨rfl, rfl, rfl, rfl, rfl, rfl⟩,
    (tools_call_success Sample.json echoServer echoRequest "echo"
      (demoTool "echo" (some echoHandler)) echoHandler
      (JsonVariant.object [("x", JsonVariant.integer 1)]) rfl rfl rfl rfl rfl).1⟩

/-- The echo scenario from request text to response text: the string id
stays a string, and the text item holds the JSON text of the arguments. -/
theorem echo_end_to_end :
    (handle Sample.json echoServer (parseRequest Sample.json echoText)).returned =
      Except.ok echoResponse ∧
    serializeResponse Sample.json echoResponse =
      "\x7b\"id\":\"a-1\",\"jsonrpc\":\"2.0\",\"result\":\x7b\"content\":" ++
        "[\x7b\"type\":\"text\",\"text\":\"\x7b\\\"x\\\":1\x7d\"\x7d]\x7d\x7d" :=
  ⟨rfl, rfl⟩

/-- C4. A tools/call whose `params.name` is not a string value (absent, of
another type, or no params at all) makes handle call no handler and return
HTTP 200 with error code -32602 and no result, whatever the registry. -/
theorem tools_call_invalid_params (lib : ArduinoJson) (self : MCPServer) (request : MCPRequest)
    (hmethod : request.method = "tools/call")
    (hname : (request.params.getMember "name").isString = false) :
    (∃ response,
      (handle lib self request).returned = Except.ok response ∧
      (handle lib self request).invoked = [] ∧
      response.code = 200 ∧
      errorCode response = JsonVariant.integer (-32602) ∧
      ErrorCode.INVALID_PARAMS.toInt = -32602 ∧
      response.hasError = true ∧
      response.hasResult = false) ∧
    (∀ other : MCPRequest, other.hasParams = false →
      (other.params.getMember "name").isString = false) ∧
    (∀ (other : MCPRequest) (members : List (String × JsonVariant)),
      other.params = JsonVariant.object members → hasKey "name" members = false →
      (other.params.getMember "name").isString = false) := by
  refine ⟨?_, ?_, ?_⟩
  · rw [handle_tools_call lib self request hmethod,
      handleFunctionCalls_invalid lib self request hname]
    exact ⟨_, rfl, rfl, rfl, rfl, rfl, rfl, rfl⟩
  · intro other hno
    have hnull : other.paramsDoc = JsonVariant.null := by
      cases hp : other.paramsDoc <;> simp [MCPRequest.hasParams, hp, isNull] at hno ⊢
    simp [MCPRequest.params, hnull, getMember, isString]
  · intro other members hparams hkey
    rw [getMember_of_hasKey_false _ _ members hparams hkey]
    rfl

/-- C4 at a tools/call request without params, the echo tool registered. -/
theorem tools_call_invalid_params_witness :
    (bareCallRequest.method = "tools/call" ∧
      (bareCallRequest.params.getMember "name").isString = false) ∧
    ∃ response,
      (handle Sample.json echoServer bareCallRequest).returned = Except.ok response ∧
      (handle Sample.json echoServer bareCallRequest).invoked = [] ∧
      response.code = 200 ∧
      errorCode response = JsonVariant.integer (-32602) ∧
      ErrorCode.INVALID_PARAMS.toInt = -32602 ∧
      response.hasError = true ∧
      response.hasResult = false :=
  ⟨⟨rfl, rfl⟩, (tools_call_invalid_params Sample.json echoServer bareCallRequest rfl rfl).1⟩

/-- A tools/call whose `params.name` is a string that, read as a C string, is
not a key of the registry makes handle call no handler and return HTTP 200
with error code -32601 and no result; so does every name without a NUL
character that is not a key. -/
theorem unknown_c_string_not_found (lib : ArduinoJson) (self : MCPServer)
    (request : MCPRequest) (name : String)
    (hmethod : request.method = "tools/call")
    (hname : request.params.getMember "name" = JsonVariant.string name)
    (hkey : (∀ entry ∈ self.tools, entry.1 ≠ c_str name) ∨
      (Char.ofNat 0 ∉ name.data ∧ ∀ entry ∈ self.tools, entry.1 ≠ name)) :
    ∃ response,
      (handle lib self request).returned = Except.ok response ∧
      (handle lib self request).invoked = [] ∧
      response.code = 200 ∧
      errorCode response = JsonVariant.integer (-32601) ∧
      response.hasError = true ∧
      response.hasResult = false := by
  have hnone : mapFind (c_str name) self.tools = none := by
    rcases hkey with hkey | ⟨hnul, hkey⟩
    · exact mapFind_eq_none (c_str name) self.tools hkey
    · rw [mapFind_c_str_of_no_nul name self.tools hnul]
      exact mapFind_eq_none name self.tools hkey
  rw [handle_tools_call lib self request hmethod,
    handleFunctionCalls_missing lib self request name hname hnone]
  exact ⟨_, rfl, rfl, rfl, rfl, rfl, rfl⟩

theorem echo_registry_keys : echoServer.tools.map Prod.fst = ["echo"] := rfl

/-- C5, at an input where the code departs from it. The requested name
`echo\u0000x` is not a key of the registry of the echo server, whose only key
is `echo`, so the claim promises error -32601 and no invocation. The lookup
converts the name through its C string, which ends at the NUL: it finds
`echo`, calls its handler with the arguments and returns a result. An unknown
name that was never registered, such as `boom`, gets the error. -/
theorem nul_name_reaches_tool :
    nulRequest.method = "tools/call" ∧
    nulRequest.params.getMember "name" = JsonVariant.string "echo\x00x" ∧
    echoServer.tools.map Prod.fst = ["echo"] ∧
    (∀ entry ∈ echoServer.tools, entry.1 ≠ "echo\x00x") ∧
    c_str "echo\x00x" = "echo" ∧
    (∀ lib : ArduinoJson,
      (handle lib echoServer nulRequest).invoked =
        [("echo", JsonVariant.object [("x", JsonVariant.integer 1)])] ∧
      ∃ response,
        (handle lib echoServer nulRequest).returned = Except.ok response ∧
        response.code = 200 ∧
        response.hasResult = true ∧
        response.hasError = false ∧
        errorCode response = JsonVariant.null) ∧
    (∃ response,
      (handle Sample.json echoServer boomRequest).returned = Except.ok response ∧
      (handle Sample.json echoServer boomRequest).invoked = [] ∧
      response.code = 200 ∧
      errorCode response = JsonVariant.integer (-32601) ∧
      response.hasResult = false) := by
  refine ⟨rfl, rfl, rfl, ?_, rfl, ?_, ?_⟩
  · intro entry hmem
    have hfst : entry.1 ∈ echoServer.tools.map Prod.fst := List.mem_map_of_mem Prod.fst hmem
    rw [echo_registry_keys, List.mem_singleton] at hfst
    rw [hfst]
    decide
  · intro lib
    exact ⟨rfl, _, rfl, rfl, rfl, rfl, rfl⟩
  · exact ⟨_, rfl, rfl, rfl, rfl, rfl⟩

/-- C6. A tools/call that names a registered tool whose handler is unbound
(the registry holds the tool under the name as the lookup reads it,
`String(name.c_str())`, which is the name itself unless it has an embedded
NUL) makes handle return HTTP 200 with error code -32603 and no result. -/
theorem tools_call_unbound_handler (lib : ArduinoJson) (self : MCPServer)
    (request : MCPRequest) (name : String) (tool : Tool)
    (hmethod : request.method = "tools/call")
    (hname : request.params.getMember "name" = JsonVariant.string name)
    (hfind : mapFind (c_str name) self.tools = some tool)
    (hhandler : tool.handler = none) :
    ∃ response,
      (handle lib self request).returned = Except.ok response ∧
      (handle lib self request).invoked = [] ∧
      response.code = 200 ∧
      errorCode response = JsonVariant.integer (-32603) ∧
      ErrorCode.INTERNAL_ERROR.toInt = -32603 ∧
      response.hasError = true ∧
      response.hasResult = false := by
  rw [handle_tools_call lib self request hmethod,
    handleFunctionCalls_unbound lib self request name tool hname hfind hhandler]
  exact ⟨_, rfl, rfl, rfl, rfl, rfl, rfl, rfl⟩

/-- C6 at a call of the tool `idle`, registered without a handler. -/
theorem tools_call_unbound_handler_witness :
    (idleRequest.method = "tools/call" ∧
      idleRequest.params.getMember "name" = JsonVariant.string "idle" ∧
      mapFind (c_str "idle") idleServer.tools = some (demoTool "idle" none) ∧
      (demoTool "idle" none).handler = none) ∧
    ∃ response,
      (handle Sample.json idleServer idleRequest).returned = Except.ok response ∧
      (handle Sample.json idleServer idleRequest).invoked = [] ∧
      response.code = 200 ∧
      errorCode response = JsonVariant.integer (-32603) ∧
      ErrorCode.INTERNAL_ERROR.toInt = -32603 ∧
      response.hasError = true ∧
      response.hasResult = false :=
  ⟨⟨rfl, rfl, rfl, rfl⟩,
    tools_call_unbound_handler Sample.json idleServer idleRequest "idle" (demoTool "idle" none)
      rfl rfl rfl rfl⟩

/-- C7, as stated, fails: the handler of `boom` fails on the request, and
handle returns no response at all; in particular none with code -32603. -/
theorem handler_failure_not_caught :
    boomRequest.method = "tools/call" ∧
    boomRequest.params.getMember "name" = JsonVariant.string "boom" ∧
    mapFind "boom" boomServer.tools = some (demoTool "boom" (some failingHandler)) ∧
    failingHandler (boomRequest.params.getMember "arguments") =
      Except.error "sensor unavailable" ∧
    (handle Sample.json boomServer boomRequest).returned = Except.error "sensor unavailable" ∧
    ¬ ∃ response,
      (handle Sample.json boomServer boomRequest).returned = Except.ok response ∧
      errorCode response = JsonVariant.integer (-32603) := by
  refine ⟨rfl, rfl, rfl, rfl, rfl, ?_⟩
  rintro ⟨response, hret, -⟩
  have hfail : (handle Sample.json boomServer boomRequest).returned =
      Except.error "sensor unavailable" := rfl
  rw [hfail] at hret
  cases hret

/-- C7, amended. When a tools/call names a registered tool with a bound
handler (the registry holds the tool under the name as the lookup reads it,
`String(name.c_str())`, which is the name itself unless it has an embedded
NUL) and that handler fails on the arguments, handle invokes it once and the
failure leaves handle unchanged: no response is returned. -/
theorem handler_failure_propagates (lib : ArduinoJson) (self : MCPServer)
    (request : MCPRequest) (name : String) (tool : Tool) (handler : ToolHandler)
    (failure : String)
    (hmethod : request.method = "tools/call")
    (hname : request.params.getMember "name" = JsonVariant.string name)
    (hfind : mapFind (c_str name) self.tools = some tool)
    (hhandler : tool.handler = some handler)
    (hcall : handler (request.params.getMember "arguments") = Except.error failure) :
    (handle lib self request).returned = Except.error failure ∧
    (handle lib self request).invoked =
      [(c_str name, request.params.getMember "arguments")] ∧
    ¬ ∃ response, (handle lib self request).returned = Except.ok response := by
  rw [handle_tools_call lib self request hmethod,
    handleFunctionCalls_fails lib self request name tool handler failure hname hfind
      hhandler hcall]
  refine ⟨rfl, rfl, ?_⟩
  rintro ⟨response, hret⟩
  cases hret

/-- C7 amended, at the failing tool `boom`. -/
theorem handler_failure_propagates_witness :
    (boomRequest.method = "tools/call" ∧
      boomRequest.params.getMember "name" = JsonVariant.string "boom" ∧
      mapFind (c_str "boom") boomServer.tools = some (demoTool "boom" (some failingHandler)) ∧
      (demoTool "boom" (some failingHandler)).handler = some failingHandler ∧
      failingHandler (boomRequest.params.getMember "arguments") =
        Except.error "sensor unavailable") ∧
    ((handle Sample.json boomServer boomRequest).returned = Except.error "sensor unavailable" ∧
      (handle Sample.json boomServer boomRequest).invoked =
        [("boom", boomRequest.params.getMember "arguments")] ∧
      ¬ ∃ response, (handle Sample.json boomServer boomRequest).returned = Except.ok response) :=
  ⟨⟨rfl, rfl, rfl, rfl, rfl⟩,
    handler_failure_propagates Sample.json boomServer boomRequest "boom"
      (demoTool "boom" (some failingHandler)) failingHandler "sensor unavailable"
      rfl rfl rfl rfl rfl⟩

/-! ## The registry -/

theorem mapAssign_key_mem {α : Type} (key : String) (value : α) (entries : List (String × α))
    (k : String) :
    k ∈ (mapAssign key value entries).map Prod.fst ↔ k = key ∨ k ∈ entries.map Prod.fst := by
  induction entries with
  | nil => simp [mapAssign]
  | cons e rest ih =>
    obtain ⟨k0, v0⟩ := e
    by_cases h1 : key < k0
    · simp [mapAssign, h1]
    · by_cases h2 : k0 < key
      · simp only [mapAssign, h1, h2, if_false, if_true, List.map_cons, List.mem_cons, ih]
        tauto
      · have hk : k0 = key := le_antisymm (not_lt.mp h1) (not_lt.mp h2)
        simp [mapAssign, h1, h2, hk]

theorem mapAssign_sorted {α : Type} (key : String) (value : α) (entries : List (String × α))
    (hsorted : (entries.map Prod.fst).Pairwise (fun a b => a < b)) :
    ((mapAssign key value entries).map Prod.fst).Pairwise (fun a b => a < b) := by
  induction entries with
  | nil => simp [mapAssign]
  | cons e rest ih =>
    obtain ⟨k0, v0⟩ := e
    rw [List.map_cons, List.pairwise_cons] at hsorted
    obtain ⟨hhead, htail⟩ := hsorted
    by_cases h1 : key < k0
    · simp only [mapAssign, h1, if_true, List.map_cons, List.pairwise_cons]
      refine ⟨?_, hhead, htail⟩
      intro b hb
      rcases List.mem_cons.mp hb with hb0 | hbrest
      · rw [hb0]
        exact h1
      · exact lt_trans h1 (hhead b hbrest)
    · by_cases h2 : k0 < key
      · simp only [mapAssign, h1, h2, if_false, if_true, List.map_cons, List.pairwise_cons]
        refine ⟨?_, ih htail⟩
        intro b hb
        rcases (mapAssign_key_mem key value rest b).mp hb with hb0 | hbrest
        · rw [hb0]
          exact h2
        · exact hhead b hbrest
      · simp only [mapAssign, h1, h2, if_false, List.map_cons, List.pairwise_cons]
        exact ⟨hhead, htail⟩

theorem mapFind_mapAssign_same {α : Type} (key : String) (value : α)
    (entries : List (String × α)) : mapFind key (mapAssign key value entries) = some value := by
  induction entries with
  | nil => simp [mapAssign, mapFind]
  | cons e rest ih =>
    obtain ⟨k0, v0⟩ := e
    by_cases h1 : key < k0
    · simp [mapAssign, h1, mapFind]
    · by_cases h2 : k0 < key
      · have hne : k0 ≠ key := ne_of_lt h2
        simp [mapAssign, h1, h2, mapFind, hne, ih]
      · have hk : k0 = key := le_antisymm (not_lt.mp h1) (not_lt.mp h2)
        simp [mapAssign, h1, h2, mapFind, hk]

theorem mapFind_mapAssign_other {α : Type} (key : String) (value : α)
    (entries : List (String × α)) (name : String) (hne : name ≠ key) :
    mapFind name (mapAssign key value entries) = mapFind name entries := by
  induction entries with
  | nil => simp [mapAssign, mapFind, Ne.symm hne]
  | cons e rest ih =>
    obtain ⟨k0, v0⟩ := e
    by_cases h1 : key < k0
    · simp [mapAssign, h1, mapFind, Ne.symm hne]
    · by_cases h2 : k0 < key
      · simp [mapAssign, h1, h2, mapFind, ih]
      · have hk : k0 = key := le_antisymm (not_lt.mp h1) (not_lt.mp h2)
        simp [mapAssign, h1, h2, mapFind, hk, Ne.symm hne]

theorem registerAll_cons (self : MCPServer) (tool : Tool) (rest : List Tool) :
    registerAll self (tool :: rest) = registerAll (self.RegisterTool tool) rest := rfl

theorem registerAll_sorted (registered : List Tool) :
    ∀ self : MCPServer, (self.tools.map Prod.fst).Pairwise (fun a b => a < b) →
      ((registerAll self registered).tools.map Prod.fst).Pairwise (fun a b => a < b) := by
  induction registered with
  | nil => intro self h; exact h
  | cons tool rest ih =>
    intro self h
    rw [registerAll_cons]
    exact ih _ (mapAssign_sorted tool.name tool.copy self.tools h)

theorem registerAll_key_mem (registered : List Tool) :
    ∀ (self : MCPServer) (k : String),
      k ∈ (registerAll self registered).tools.map Prod.fst ↔
        k ∈ self.tools.map Prod.fst ∨ k ∈ registered.map Tool.name := by
  induction registered with
  | nil => intro self k; simp [registerAll]
  | cons tool rest ih =>
    intro self k
    rw [registerAll_cons, ih, RegisterTool]
    simp only [mapAssign_key_mem, List.map_cons, List.mem_cons]
    tauto

theorem registry_size (name version instructions : String) (registered : List Tool) :
    (registerAll (MCPServer.create name version instructions) registered).tools.length =
      (registered.map Tool.name).toFinset.card := by
  have hsorted := registerAll_sorted registered (MCPServer.create name version instructions)
    (by simp [MCPServer.create])
  have hnodup : ((registerAll (MCPServer.create name version instructions)
      registered).tools.map Prod.fst).Nodup :=
    hsorted.imp (fun h => ne_of_lt h)
  rw [← List.length_map _ Prod.fst, ← List.toFinset_card_of_nodup hnodup]
  congr 1
  ext k
  rw [List.mem_toFinset, List.mem_toFinset, registerAll_key_mem]
  simp [MCPServer.create]

theorem addTools_array (entries : List (String × Tool)) :
    ∀ acc : List JsonVariant,
      addTools entries (JsonVariant.array acc) =
        JsonVariant.array (acc ++ entries.map (fun entry => toolEntry entry.1 entry.2)) := by
  induction entries with
  | nil => intro acc; simp [addTools]
  | cons e rest ih =>
    intro acc
    obtain ⟨k, v⟩ := e
    simp [addTools, addElement, ih]

theorem handleToolsList_result (self : MCPServer) (request : MCPRequest) :
    (handleToolsList self request).result.getMember "tools" =
      JsonVariant.array (self.tools.map (fun entry => toolEntry entry.1 entry.2)) := by
  simp [handleToolsList, MCPResponse.result, setMember, assignMember, getMember, findMember,
    addTools_array]

theorem handle_tools_list (lib : ArduinoJson) (self : MCPServer) (request : MCPRequest)
    (hmethod : request.method = "tools/list") :
    handle lib self request = Outcome.respond (handleToolsList self request) := by
  simp [handle, hmethod]

/-- C8. After any sequence of RegisterTool calls on a fresh server, the
`tools` array of the tools/list response has as many entries as there are
distinct names among the registered tools; registering once more a tool
whose name is already registered leaves that length unchanged. -/
theorem tools_list_length (lib : ArduinoJson) (name version instructions : String)
    (registered : List Tool) (request : MCPRequest)
    (hmethod : request.method = "tools/list") :
    (∃ response elements,
      (handle lib (registerAll (MCPServer.create name version instructions) registered)
        request).returned = Except.ok response ∧
      response.result.getMember "tools" = JsonVariant.array elements ∧
      elements.length = (registered.map Tool.name).toFinset.card) ∧
    (∀ again : Tool, again.name ∈ registered.map Tool.name →
      ∃ response elements,
        (handle lib
          ((registerAll (MCPServer.create name version instructions) registered).RegisterTool
            again) request).returned = Except.ok response ∧
        response.result.getMember "tools" = JsonVariant.array elements ∧
        elements.length = (registered.map Tool.name).toFinset.card) := by
  constructor
  · rw [handle_tools_list lib _ request hmethod]
    refine ⟨_, _, rfl, handleToolsList_result _ request, ?_⟩
    rw [List.length_map]
    exact registry_size name version instructions registered
  · intro again hmem
    rw [handle_tools_list lib _ request hmethod]
    refine ⟨_, _, rfl, handleToolsList_result _ request, ?_⟩
    have hstep : (registerAll (MCPServer.create name version instructions)
        registered).RegisterTool again =
        registerAll (MCPServer.create name version instructions) (registered ++ [again]) := by
      simp [registerAll, List.foldl_append]
    rw [List.length_map, hstep, registry_size]
    congr 1
    ext k
    simp only [List.map_append, List.map_cons, List.map_nil, List.toFinset_append,
      List.toFinset_cons, List.toFinset_nil, Finset.mem_union, Finset.mem_insert,
      List.mem_toFinset, Finset.not_mem_empty, or_false]
    constructor
    · rintro (h | h)
      · exact h
      · rw [h]
        exact hmem
    · intro h
      exact Or.inl h

/-- C9. After RegisterTool(t) the registry maps `t.name` to exactly `t`, the
entry of every other name is what it was, and the configured strings of the
server are untouched. -/
theorem register_replaces_entry (self : MCPServer) (tool : Tool) :
    mapFind tool.name (self.RegisterTool tool).tools = some tool ∧
    (∀ name : String, name ≠ tool.name →
      mapFind name (self.RegisterTool tool).tools = mapFind name self.tools) ∧
    (self.RegisterTool tool).serverName = self.serverName ∧
    (self.RegisterTool tool).serverVersion = self.serverVersion ∧
    (self.RegisterTool tool).serverInstructions = self.serverInstructions := by
  refine ⟨?_, ?_, rfl, rfl, rfl⟩
  · rw [RegisterTool, tool_copy_eq]
    exact mapFind_mapAssign_same tool.name tool self.tools
  · intro name hne
    exact mapFind_mapAssign_other tool.name tool.copy self.tools name hne

/-- C8 at three registrations with two distinct names: two entries. -/
theorem tools_list_length_witness :
    listRequest.method = "tools/list" ∧
    (demoTools.map Tool.name).toFinset.card = 2 ∧
    ∃ response elements,
      (handle Sample.json (registerAll (MCPServer.create "dev" "1" "") demoTools)
        listRequest).returned = Except.ok response ∧
      response.result.getMember "tools" = JsonVariant.array elements ∧
      elements.length = (demoTools.map Tool.name).toFinset.card :=
  ⟨rfl, by decide, (tools_list_length Sample.json "dev" "1" "" demoTools listRequest rfl).1⟩

/-! ## initialize -/

theorem handle_init_route (lib : ArduinoJson) (self : MCPServer) (request : MCPRequest)
    (hmethod : request.method = "initialize") :
    handle lib self request = Outcome.respond (handleInitialize self request) := by
  simp [handle, hmethod]

theorem handleInitialize_result (self : MCPServer) (request : MCPRequest) :
    (handleInitialize self request).result =
      JsonVariant.object
        ([("protocolVersion", JsonVariant.string "2024-11-05"),
          ("capabilities", JsonVariant.object
            [("experimental", JsonVariant.object []),
              ("tools", JsonVariant.object [("listChanged", JsonVariant.boolean false)])]),
          ("serverInfo", JsonVariant.object
            [("name", JsonVariant.string self.serverName),
              ("version", JsonVariant.string self.serverVersion)])] ++
          (if self.serverInstructions = "" then []
            else [("instructions", JsonVariant.string self.serverInstructions)])) := by
  by_cases h : self.serverInstructions = ""
  · have hlen : ¬ self.serverInstructions.length > 0 := by
      rw [length_pos_iff_ne_empty]
      exact not_not.mpr h
    simp [handleInitialize, MCPResponse.result, setMember, assignMember, PROTOCOL_VERSION, h]
  · have hlen : self.serverInstructions.length > 0 := (length_pos_iff_ne_empty _).mpr h
    simp [handleInitialize, MCPResponse.result, setMember, assignMember, PROTOCOL_VERSION, h,
      hlen]

/-- C10. For every server (any name, version, instructions and registry) and
every initialize request, handle calls no handler and returns HTTP 200 with no
error and a result in which protocolVersion is "2024-11-05",
capabilities.experimental is the empty object, capabilities.tools.listChanged
is false, serverInfo.name and serverInfo.version are the configured strings,
and the key `instructions` is absent exactly when the configured instructions
are empty, being that string otherwise. -/
theorem initialize_result (lib : ArduinoJson) (self : MCPServer) (request : MCPRequest)
    (hmethod : request.method = "initialize") :
    ∃ response,
      (handle lib self request).returned = Except.ok response ∧
      (handle lib self request).invoked = [] ∧
      response.code = 200 ∧
      response.hasError = false ∧
      response.result.getMember "protocolVersion" = JsonVariant.string "2024-11-05" ∧
      (response.result.getMember "capabilities").getMember "experimental" =
        JsonVariant.object [] ∧
      ((response.result.getMember "capabilities").getMember "tools").getMember "listChanged" =
        JsonVariant.boolean false ∧
      (response.result.getMember "serverInfo").getMember "name" =
        JsonVariant.string self.serverName ∧
      (response.result.getMember "serverInfo").getMember "version" =
        JsonVariant.string self.serverVersion ∧
      ("instructions" ∉ response.result.keys ↔ self.serverInstructions = "") ∧
      (self.serverInstructions ≠ "" →
        response.result.getMember "instructions" =
          JsonVariant.string self.serverInstructions) := by
  rw [handle_init_route lib self request hmethod]
  refine ⟨_, rfl, rfl, rfl, rfl, ?_⟩
  rw [handleInitialize_result]
  by_cases h : self.serverInstructions = ""
  · simp [h, getMember, findMember, keys]
  · simp [h, getMember, findMember, keys]

/-- C10 at a server constructed with instructions. -/
theorem initialize_result_witness :
    initRequest.method = "initialize" ∧
    ∃ response,
      (handle Sample.json guidedServer initRequest).returned = Except.ok response ∧
      (handle Sample.json guidedServer initRequest).invoked = [] ∧
      response.code = 200 ∧
      response.hasError = false ∧
      response.result.getMember "protocolVersion" = JsonVariant.string "2024-11-05" ∧
      (response.result.getMember "capabilities").getMember "experimental" =
        JsonVariant.object [] ∧
      ((response.result.getMember "capabilities").getMember "tools").getMember "listChanged" =
        JsonVariant.boolean false ∧
      (response.result.getMember "serverInfo").getMember "name" =
        JsonVariant.string guidedServer.serverName ∧
      (response.result.getMember "serverInfo").getMember "version" =
        JsonVariant.string guidedServer.serverVersion ∧
      ("instructions" ∉ response.result.keys ↔ guidedServer.serverInstructions = "") ∧
      (guidedServer.serverInstructions ≠ "" →
        response.result.getMember "instructions" =
          JsonVariant.string guidedServer.serverInstructions) :=
  ⟨rfl, initialize_result Sample.json guidedServer initRequest rfl⟩

/-- The initialize response text of a server without instructions. -/
theorem initialize_response_text :
    (handle Sample.json demoServer initRequest).returned =
      Except.ok (handleInitialize demoServer initRequest) ∧
    serializeResponse Sample.json (handleInitialize demoServer initRequest) =
      "\x7b\"id\":0,\"jsonrpc\":\"2.0\",\"result\":\x7b\"protocolVersion\":\"2024-11-05\",\"capabilities\":\x7b\"experimental\":\x7b\x7d,\"tools\":\x7b\"listChanged\":false\x7d\x7d,\"serverInfo\":\x7b\"name\":\"ESP32-MCP-Server\",\"version\":\"1.0.0\"\x7d\x7d\x7d" :=
  ⟨rfl, rfl⟩

/-! ## The response envelope -/

theorem handleInitialize_hasResult (self : MCPServer) (request : MCPRequest) :
    (handleInitialize self request).hasResult = true ∧
    (handleInitialize self request).hasError = false ∧
    (handleInitialize self request).code = 200 := by
  refine ⟨?_, rfl, rfl⟩
  have h := handleInitialize_result self request
  rw [MCPResponse.result] at h
  simp [MCPResponse.hasResult, h, isNull]

theorem handleToolsList_hasResult (self : MCPServer) (request : MCPRequest) :
    (handleToolsList self request).hasResult = true ∧
    (handleToolsList self request).hasError = false ∧
    (handleToolsList self request).code = 200 := by
  refine ⟨?_, rfl, rfl⟩
  simp [handleToolsList, MCPResponse.hasResult, setMember, assignMember, isNull]

theorem handle_empty_method (lib : ArduinoJson) (self : MCPServer) (request : MCPRequest)
    (hmethod : request.method = "") :
    handle lib self request =
      Outcome.respond (createJSONRPCError 400 (-32700) request.id
        "Parse error: Invalid JSON") := by
  simp [handle, hmethod, ErrorCode.toInt]

theorem handle_notification (lib : ArduinoJson) (self : MCPServer) (request : MCPRequest)
    (hmethod : request.method = "notifications/initialized") :
    handle lib self request = Outcome.respond (handleInitialized self request) := by
  simp [handle, hmethod]

theorem handle_unknown_method (lib : ArduinoJson) (self : MCPServer) (request : MCPRequest)
    (h0 : request.method ≠ "") (h1 : request.method ≠ "initialize")
    (h2 : request.method ≠ "tools/list") (h3 : request.method ≠ "notifications/initialized")
    (h4 : request.method ≠ "tools/call") :
    handle lib self request =
      Outcome.respond (createJSONRPCError 200 (-32601) request.id
        ("Method not found: " ++ request.method)) := by
  simp [handle, h0, h1, h2, h3, h4, ErrorCode.toInt]

/-- Every response that handle returns is of one of three kinds: the parse
error (400) for the empty method, the bare acknowledgement (202) for
`notifications/initialized`, or a 200 response with exactly one of result and
error for every other method. -/
theorem handle_response_kinds (lib : ArduinoJson) (self : MCPServer) (request : MCPRequest)
    (response : MCPResponse)
    (hret : (handle lib self request).returned = Except.ok response) :
    (request.method = "" ∧ response.code = 400 ∧ response.hasResult = false ∧
      response.hasError = true ∧ errorCode response = JsonVariant.integer (-32700)) ∨
    (request.method = "notifications/initialized" ∧ response.code = 202 ∧
      response.hasResult = false ∧ response.hasError = false) ∨
    (request.method ≠ "" ∧ request.method ≠ "notifications/initialized" ∧
      response.code = 200 ∧
      ((response.hasResult = true ∧ response.hasError = false) ∨
        (response.hasResult = false ∧ response.hasError = true))) := by
  by_cases h0 : request.method = ""
  · left
    rw [handle_empty_method lib self request h0] at hret
    cases hret
    exact ⟨h0, rfl, rfl, rfl, rfl⟩
  by_cases h3 : request.method = "notifications/initialized"
  · right; left
    rw [handle_notification lib self request h3] at hret
    cases hret
    exact ⟨h3, rfl, rfl, rfl⟩
  right; right
  refine ⟨h0, h3, ?_⟩
  by_cases h1 : request.method = "initialize"
  · rw [handle_init_route lib self request h1] at hret
    cases hret
    obtain ⟨hr, he, hc⟩ := handleInitialize_hasResult self request
    exact ⟨hc, Or.inl ⟨hr, he⟩⟩
  by_cases h2 : request.method = "tools/list"
  · rw [handle_tools_list lib self request h2] at hret
    cases hret
    obtain ⟨hr, he, hc⟩ := handleToolsList_hasResult self request
    exact ⟨hc, Or.inl ⟨hr, he⟩⟩
  by_cases h4 : request.method = "tools/call"
  · rw [handle_tools_call lib self request h4] at hret
    rcases isString_false_or (request.params.getMember "name") with hname | ⟨name, hname⟩
    · rw [handleFunctionCalls_invalid lib self request hname] at hret
      cases hret
      exact ⟨rfl, Or.inr ⟨rfl, rfl⟩⟩
    · cases hfind : mapFind (c_str name) self.tools with
      | none =>
        rw [handleFunctionCalls_missing lib self request name hname hfind] at hret
        cases hret
        exact ⟨rfl, Or.inr ⟨rfl, rfl⟩⟩
      | some tool =>
        cases hhandler : tool.handler with
        | none =>
          rw [handleFunctionCalls_unbound lib self request name tool hname hfind hhandler]
            at hret
          cases hret
          exact ⟨rfl, Or.inr ⟨rfl, rfl⟩⟩
        | some handler =>
          cases hres : handler (request.params.getMember "arguments") with
          | ok value =>
            rw [handleFunctionCalls_returns lib self request name tool handler value hname
              hfind hhandler hres] at hret
            cases hret
            exact ⟨rfl, Or.inl ⟨rfl, rfl⟩⟩
          | error failure =>
            rw [handleFunctionCalls_fails lib self request name tool handler failure hname
              hfind hhandler hres] at hret
            cases hret
  · rw [handle_unknown_method lib self request h0 h1 h2 h3 h4] at hret
    cases hret
    exact ⟨rfl, Or.inr ⟨rfl, rfl⟩⟩

/-- C11, as stated, fails: the response to `notifications/initialized` has
neither result nor error populated. -/
theorem notification_has_neither :
    (handle Sample.json demoServer notifyRequest).returned =
      Except.ok (MCPResponse.create 202 (JsonVariant.integer 3)) ∧
    (MCPResponse.create 202 (JsonVariant.integer 3)).hasResult = false ∧
    (MCPResponse.create 202 (JsonVariant.integer 3)).hasError = false ∧
    ¬ ∀ response,
      (handle Sample.json demoServer notifyRequest).returned = Except.ok response →
      (response.hasResult = true ∧ response.hasError = false) ∨
        (response.hasResult = false ∧ response.hasError = true) := by
  refine ⟨rfl, rfl, rfl, ?_⟩
  intro hall
  rcases hall (MCPResponse.create 202 (JsonVariant.integer 3)) rfl with ⟨h, -⟩ | ⟨-, h⟩
  · cases h
  · cases h

/-- C11, amended. For every request envelope and every registry, handle
returns a response unless a bound handler fails; a returned response never
has both result and error populated, and it has neither populated exactly
when the method is `notifications/initialized`, so for every other method
exactly one of the two is populated. -/
theorem result_error_exclusive (lib : ArduinoJson) (self : MCPServer) (request : MCPRequest) :
    ((∃ response, (handle lib self request).returned = Except.ok response) ∨
      (∃ failure, HandlerFails self request failure ∧
        (handle lib self request).returned = Except.error failure)) ∧
    ∀ response, (handle lib self request).returned = Except.ok response →
      ¬ (response.hasResult = true ∧ response.hasError = true) ∧
      ((response.hasResult = false ∧ response.hasError = false) ↔
        request.method = "notifications/initialized") ∧
      (request.method ≠ "notifications/initialized" →
        (response.hasResult = true ∧ response.hasError = false) ∨
          (response.hasResult = false ∧ response.hasError = true)) := by
  constructor
  · rcases handle_id_or_failure lib self request with ⟨response, hret, -⟩ | hfail
    · exact Or.inl ⟨response, hret⟩
    · exact Or.inr hfail
  · intro response hret
    rcases handle_response_kinds lib self request response hret with
      ⟨h0, -, hr, he, -⟩ | ⟨h3, -, hr, he⟩ | ⟨-, h3, -, hone⟩
    · refine ⟨?_, ?_, ?_⟩
      · rw [hr]; simp
      · rw [hr, he, h0]; simp
      · intro _; exact Or.inr ⟨hr, he⟩
    · refine ⟨?_, ?_, ?_⟩
      · rw [hr]; simp
      · rw [hr, he]; simp [h3]
      · intro hne; exact absurd h3 hne
    · refine ⟨?_, ?_, ?_⟩
      · rcases hone with ⟨hr, he⟩ | ⟨hr, he⟩ <;> rw [hr, he] <;> simp
      · rcases hone with ⟨hr, he⟩ | ⟨hr, he⟩ <;> rw [hr, he] <;> simp [h3]
      · intro _; exact hone

/-- C12. For every response envelope, serializeResponse writes the text of a
JSON object whose keys are `id`, `jsonrpc`, then `result` exactly when the
result is populated, then `error` exactly when the error is populated, and
nothing else; `jsonrpc` is "2.0" and the other members are the envelope's
values. -/
theorem serialize_response_keys (lib : ArduinoJson) (response : MCPResponse) :
    serializeResponse lib response = serializeJson lib (responseDocument response) ∧
    (∃ members, responseDocument response = JsonVariant.object members) ∧
    (responseDocument response).keys =
      ["id", "jsonrpc"] ++ (if response.hasResult then ["result"] else []) ++
        (if response.hasError then ["error"] else []) ∧
    (responseDocument response).getMember "id" = response.id ∧
    (responseDocument response).getMember "jsonrpc" = JsonVariant.string "2.0" ∧
    (response.hasResult = true →
      (responseDocument response).getMember "result" = response.result) ∧
    (response.hasError = true →
      (responseDocument response).getMember "error" = response.error) := by
  refine ⟨rfl, ⟨_, responseDocument_eq response⟩, ?_, responseDocument_id response, ?_, ?_, ?_⟩
  · rw [responseDocument_eq]
    cases response.hasResult <;> cases response.hasError <;> simp [keys]
  · rw [responseDocument_eq]
    simp [getMember, findMember]
  · intro hr
    rw [responseDocument_eq, hr]
    simp [getMember, findMember, MCPResponse.result]
  · intro he
    rw [responseDocument_eq, he]
    cases response.hasResult <;> simp [getMember, findMember, MCPResponse.error]

/-- C13. createJSONRPCError(s, c, i, m) returns an envelope with HTTP status
`s`, id `i`, no result, and an error object with exactly the two members
`code`, the integer `c`, and `message`, the string `m`. -/
theorem error_builder_shape (s c : Int) (i : JsonVariant) (m : String) :
    (createJSONRPCError s c i m).code = s ∧
    (createJSONRPCError s c i m).id = i ∧
    (createJSONRPCError s c i m).hasResult = false ∧
    (createJSONRPCError s c i m).result = JsonVariant.null ∧
    (createJSONRPCError s c i m).hasError = true ∧
    (createJSONRPCError s c i m).error =
      JsonVariant.object [("code", JsonVariant.integer c), ("message", JsonVariant.string m)] ∧
    (createJSONRPCError s c i m).error.keys = ["code", "message"] :=
  ⟨rfl, rfl, rfl, rfl, rfl, rfl, rfl⟩

/-- C14. handle returns HTTP 400 exactly when the method is empty; then the
error code is -32700, no handler is called and the outcome does not depend on
the server state. Every non-empty method other than the four routed ones
gets HTTP 200 with error code -32601. Every returned status is 400, 200 or
202, and for a non-empty method it is never in the 4xx range. -/
theorem dispatcher_status_map (lib : ArduinoJson) (self : MCPServer) (request : MCPRequest) :
    ((∃ response, (handle lib self request).returned = Except.ok response ∧
        response.code = 400) ↔ request.method = "") ∧
    (request.method = "" →
      ∃ response, (handle lib self request).returned = Except.ok response ∧
        (handle lib self request).invoked = [] ∧
        response.code = 400 ∧
        errorCode response = JsonVariant.integer (-32700) ∧
        ∀ other : MCPServer, handle lib other request = handle lib self request) ∧
    (request.method ≠ "" → request.method ≠ "initialize" →
      request.method ≠ "notifications/initialized" → request.method ≠ "tools/list" →
      request.method ≠ "tools/call" →
      ∃ response, (handle lib self request).returned = Except.ok response ∧
        (handle lib self request).invoked = [] ∧
        response.code = 200 ∧
        errorCode response = JsonVariant.integer (-32601) ∧
        response.hasResult = false) ∧
    (∀ response, (handle lib self request).returned = Except.ok response →
      (response.code = 400 ∨ response.code = 200 ∨ response.code = 202) ∧
      (request.method ≠ "" → ¬ (400 ≤ response.code ∧ response.code < 500))) := by
  refine ⟨⟨?_, ?_⟩, ?_, ?_, ?_⟩
  · rintro ⟨response, hret, hcode⟩
    rcases handle_response_kinds lib self request response hret with
      ⟨h0, -⟩ | ⟨-, hc, -⟩ | ⟨-, -, hc, -⟩
    · exact h0
    · rw [hc] at hcode; cases hcode
    · rw [hc] at hcode; cases hcode
  · intro h0
    rw [handle_empty_method lib self request h0]
    exact ⟨_, rfl, rfl⟩
  · intro h0
    rw [handle_empty_method lib self request h0]
    refine ⟨_, rfl, rfl, rfl, rfl, ?_⟩
    intro other
    exact handle_empty_method lib other request h0
  · intro h0 h1 h3 h2 h4
    rw [handle_unknown_method lib self request h0 h1 h2 h3 h4]
    exact ⟨_, rfl, rfl, rfl, rfl, rfl⟩
  · intro response hret
    rcases handle_response_kinds lib self request response hret with
      ⟨h0, hc, -⟩ | ⟨-, hc, -⟩ | ⟨h0, -, hc, -⟩
    · exact ⟨Or.inl hc, fun hne => absurd h0 hne⟩
    · refine ⟨Or.inr (Or.inr hc), fun _ => ?_⟩
      rw [hc]; decide
    · refine ⟨Or.inr (Or.inl hc), fun _ => ?_⟩
      rw [hc]; decide

/-- C15. For every request with method `notifications/initialized`, whatever
its params and the registry, handle calls no handler and returns HTTP 202
with the request's id, no error and an unpopulated result. -/
theorem notification_acknowledged (lib : ArduinoJson) (self : MCPServer)
    (request : MCPRequest) (hmethod : request.method = "notifications/initialized") :
    ∃ response,
      (handle lib self request).returned = Except.ok response ∧
      (handle lib self request).invoked = [] ∧
      response.code = 202 ∧
      response.id = request.id ∧
      response.hasError = false ∧
      response.hasResult = false ∧
      response.result = JsonVariant.null := by
  rw [handle_notification lib self request hmethod]
  exact ⟨_, rfl, rfl, rfl, rfl, rfl, rfl, rfl⟩

/-- C15 at a notification with params, the echo tool registered. -/
theorem notification_acknowledged_witness :
    notifyRequest.method = "notifications/initialized" ∧
    ∃ response,
      (handle Sample.json echoServer notifyRequest).returned = Except.ok response ∧
      (handle Sample.json echoServer notifyRequest).invoked = [] ∧
      response.code = 202 ∧
      response.id = notifyRequest.id ∧
      response.hasError = false ∧
      response.hasResult = false ∧
      response.result = JsonVariant.null :=
  ⟨rfl, notification_acknowledged Sample.json echoServer notifyRequest rfl⟩

/-! ## The serialized schema object -/

theorem hasKey_append (key : String) (l m : List (String × JsonVariant)) :
    hasKey key (l ++ m) = (hasKey key l || hasKey key m) := by
  induction l with
  | nil => simp [hasKey]
  | cons e rest ih =>
    obtain ⟨k, v⟩ := e
    by_cases hk : k = key
    · simp [hasKey, hk]
    · simp [hasKey, hk, ih]

theorem hasKey_optionalMember (key : String) (present : Prop) [Decidable present]
    (k : String) (v : JsonVariant) :
    hasKey key (optionalMember present k v) = (decide present && decide (k = key)) := by
  by_cases h : present <;> simp [optionalMember, hasKey, h]

theorem findMember_append (key : String) (l m : List (String × JsonVariant)) :
    findMember key (l ++ m) = if hasKey key l then findMember key l else findMember key m := by
  induction l with
  | nil => simp [hasKey, findMember]
  | cons e rest ih =>
    obtain ⟨k, v⟩ := e
    by_cases hk : k = key
    · simp [hasKey, findMember, hk]
    · simp [hasKey, findMember, hk, ih]

theorem assignMember_fresh (key : String) (value : JsonVariant)
    (l : List (String × JsonVariant)) (h : hasKey key l = false) :
    assignMember key value l = l ++ [(key, value)] := by
  induction l with
  | nil => rfl
  | cons e rest ih =>
    obtain ⟨k, v⟩ := e
    by_cases hk : k = key
    · simp [hasKey, hk] at h
    · simp only [hasKey, hk, if_false] at h
      simp [assignMember, hk, ih h]

theorem putIf_object (present : Prop) [Decidable present] (key : String)
    (value : JsonVariant) (l : List (String × JsonVariant)) (h : hasKey key l = false) :
    putIf present key value (JsonVariant.object l) =
      JsonVariant.object (l ++ optionalMember present key value) := by
  by_cases hp : present
  · simp [putIf, optionalMember, hp, setMember, assignMember_fresh key value l h]
  · simp [putIf, optionalMember, hp]

theorem toJson_as_steps (p : Properties) (obj : JsonVariant) :
    p.toJson obj =
      putIf (p.defaultValue.length > 0) "default" (JsonVariant.string p.defaultValue)
      (putIf (p.format.length > 0) "format" (JsonVariant.string p.format)
      (putIf (!p.allOf.isEmpty) "allOf" (schemasToJson p.allOf (JsonVariant.array []))
      (putIf (!p.anyOf.isEmpty) "anyOf" (schemasToJson p.anyOf (JsonVariant.array []))
      (putIf (!p.oneOf.isEmpty) "oneOf" (schemasToJson p.oneOf (JsonVariant.array []))
      (putIf (!p.enumValues.isEmpty) "enum" (addStrings p.enumValues (JsonVariant.array []))
      ((match p.items with
        | some child =>
          fun (o : JsonVariant) => o.setMember "items" (child.toJson (JsonVariant.object []))
        | none => fun (o : JsonVariant) => o)
      (putIf p.hasAdditionalProperties "additionalProperties"
        (JsonVariant.boolean p.additionalProperties)
      (putIf (!p.required.isEmpty) "required" (addStrings p.required (JsonVariant.array []))
      (putIf (!p.properties.isEmpty) "properties"
        (propertiesToJson p.properties (JsonVariant.object []))
      (putIf (p.description.length > 0) "description"
        (JsonVariant.string p.description)
      (putIf (p.title.length > 0) "title" (JsonVariant.string p.title)
      (obj.setMember "type" (JsonVariant.string p.type))))))))))))) := by
  obtain ⟨type, title, description, properties, required, additionalProperties,
    hasAdditionalProperties, items, enumValues, oneOf, anyOf, allOf, format, defaultValue⟩ := p
  cases items with
  | none => rfl
  | some child => rfl

theorem hasKey_itemsMember (key : String) (items : Option Properties) :
    hasKey key (itemsMember items) = (items.isSome && decide ("items" = key)) := by
  cases items <;> simp [itemsMember, hasKey]

theorem items_step (items : Option Properties) (l : List (String × JsonVariant))
    (h : hasKey "items" l = false) :
    (match items with
      | some child =>
        fun (o : JsonVariant) => o.setMember "items" (child.toJson (JsonVariant.object []))
      | none => fun (o : JsonVariant) => o) (JsonVariant.object l) =
      JsonVariant.object (l ++ itemsMember items) := by
  cases items with
  | none => simp [itemsMember]
  | some child => simp [itemsMember, setMember, assignMember_fresh _ _ l h]

/-- Written into an empty object, a schema node gives exactly the members of
`schemaMembers`, in that order. -/
theorem toJson_empty (p : Properties) :
    p.toJson (JsonVariant.object []) = JsonVariant.object (schemaMembers p) := by
  have h0 : (JsonVariant.object []).setMember "type" (JsonVariant.string p.type) =
      JsonVariant.object [("type", JsonVariant.string p.type)] := rfl
  rw [toJson_as_steps, h0]
  rw [putIf_object _ "title" _ _ (by simp [hasKey])]
  rw [putIf_object _ "description" _ _
    (by simp [hasKey_append, hasKey_optionalMember, hasKey_itemsMember, hasKey])]
  rw [putIf_object _ "properties" _ _
    (by simp [hasKey_append, hasKey_optionalMember, hasKey_itemsMember, hasKey])]
  rw [putIf_object _ "required" _ _
    (by simp [hasKey_append, hasKey_optionalMember, hasKey_itemsMember, hasKey])]
  rw [putIf_object _ "additionalProperties" _ _
    (by simp [hasKey_append, hasKey_optionalMember, hasKey_itemsMember, hasKey])]
  rw [items_step _ _
    (by simp [hasKey_append, hasKey_optionalMember, hasKey_itemsMember, hasKey])]
  rw [putIf_object _ "enum" _ _
    (by simp [hasKey_append, hasKey_optionalMember, hasKey_itemsMember, hasKey])]
  rw [putIf_object _ "oneOf" _ _
    (by simp [hasKey_append, hasKey_optionalMember, hasKey_itemsMember, hasKey])]
  rw [putIf_object _ "anyOf" _ _
    (by simp [hasKey_append, hasKey_optionalMember, hasKey_itemsMember, hasKey])]
  rw [putIf_object _ "allOf" _ _
    (by simp [hasKey_append, hasKey_optionalMember, hasKey_itemsMember, hasKey])]
  rw [putIf_object _ "format" _ _
    (by simp [hasKey_append, hasKey_optionalMember, hasKey_itemsMember, hasKey])]
  rw [putIf_object _ "default" _ _
    (by simp [hasKey_append, hasKey_optionalMember, hasKey_itemsMember, hasKey])]
  simp only [schemaMembers, List.append_assoc, List.cons_append, List.nil_append]

theorem hasKey_optional_append (key : String) (present : Prop) [Decidable present]
    (k : String) (v : JsonVariant) (rest : List (String × JsonVariant)) :
    hasKey key (optionalMember present k v ++ rest) =
      ((decide present && decide (k = key)) || hasKey key rest) := by
  rw [hasKey_append, hasKey_optionalMember]

theorem hasKey_items_append (key : String) (items : Option Properties)
    (rest : List (String × JsonVariant)) :
    hasKey key (itemsMember items ++ rest) =
      ((items.isSome && decide ("items" = key)) || hasKey key rest) := by
  rw [hasKey_append, hasKey_itemsMember]

theorem findMember_optional_append (key : String) (present : Prop) [Decidable present]
    (k : String) (v : JsonVariant) (rest : List (String × JsonVariant)) :
    findMember key (optionalMember present k v ++ rest) =
      if present ∧ k = key then v else findMember key rest := by
  by_cases h : present <;> by_cases hk : k = key <;> simp [optionalMember, findMember, h, hk]

theorem findMember_items_append (key : String) (items : Option Properties)
    (rest : List (String × JsonVariant)) :
    findMember key (itemsMember items ++ rest) =
      if items.isSome = true ∧ "items" = key then findMember key (itemsMember items)
      else findMember key rest := by
  cases items with
  | none => simp [itemsMember]
  | some child =>
    by_cases hk : "items" = key <;> simp [itemsMember, findMember, hk]

theorem findMember_optionalMember (key : String) (present : Prop) [Decidable present]
    (k : String) (v : JsonVariant) :
    findMember key (optionalMember present k v) =
      if present ∧ k = key then v else JsonVariant.null := by
  by_cases h : present <;> by_cases hk : k = key <;> simp [optionalMember, findMember, h, hk]

theorem mem_keys_object (key : String) (l : List (String × JsonVariant)) :
    key ∈ (JsonVariant.object l).keys ↔ hasKey key l = true := by
  induction l with
  | nil => simp [keys, hasKey]
  | cons e rest ih =>
    obtain ⟨k, v⟩ := e
    by_cases hk : k = key
    · simp [keys, hasKey, hk]
    · have hk2 : ¬ key = k := fun h => hk h.symm
      simp only [keys, List.map_cons, List.mem_cons, hk2, false_or, hasKey, hk, if_false]
      exact ih

theorem addStrings_array (values : List String) :
    ∀ acc : List JsonVariant,
      addStrings values (JsonVariant.array acc) =
        JsonVariant.array (acc ++ values.map JsonVariant.string) := by
  induction values with
  | nil => intro acc; simp [addStrings]
  | cons s rest ih => intro acc; simp [addStrings, addElement, ih]

theorem schemasToJson_array (schemas : List Properties) :
    ∀ acc : List JsonVariant,
      schemasToJson schemas (JsonVariant.array acc) =
        JsonVariant.array
          (acc ++ schemas.map (fun schema => schema.toJson (JsonVariant.object []))) := by
  induction schemas with
  | nil => intro acc; simp [schemasToJson]
  | cons s rest ih => intro acc; simp [schemasToJson, addElement, ih]

theorem isEmpty_eq_false_iff {α : Type} (l : List α) : (!l.isEmpty) = true ↔ l ≠ [] := by
  cases l <;> simp

/-- C16, as stated, fails: a node whose `defaultValue` is "5" is serialized
without a key `defaultValue`; the value is emitted under the key `default`. -/
theorem default_key_is_default :
    schemaWithDefault.defaultValue = "5" ∧
    schemaWithDefault.toJson (JsonVariant.object []) =
      JsonVariant.object
        [("type", JsonVariant.string "integer"), ("default", JsonVariant.string "5")] ∧
    ¬ ("defaultValue" ∈ (schemaWithDefault.toJson (JsonVariant.object [])).keys ↔
      schemaWithDefault.defaultValue ≠ "") := by
  have hjson : schemaWithDefault.toJson (JsonVariant.object []) =
      JsonVariant.object
        [("type", JsonVariant.string "integer"), ("default", JsonVariant.string "5")] := rfl
  refine ⟨rfl, hjson, ?_⟩
  rw [hjson]
  simp [keys, schemaWithDefault]

/-- C16, amended. For every schema node, the serialized object always has
`type`, and has `title`, `description`, `format` and `default` each exactly
when the node's title, description, format and defaultValue is non-empty,
the value then being that string; it never has a key `defaultValue`. -/
theorem schema_string_fields (p : Properties) :
    ("type" ∈ (p.toJson (JsonVariant.object [])).keys ∧
      (p.toJson (JsonVariant.object [])).getMember "type" = JsonVariant.string p.type) ∧
    (("title" ∈ (p.toJson (JsonVariant.object [])).keys ↔ p.title ≠ "") ∧
      (p.title ≠ "" →
        (p.toJson (JsonVariant.object [])).getMember "title" = JsonVariant.string p.title)) ∧
    (("description" ∈ (p.toJson (JsonVariant.object [])).keys ↔ p.description ≠ "") ∧
      (p.description ≠ "" →
        (p.toJson (JsonVariant.object [])).getMember "description" =
          JsonVariant.string p.description)) ∧
    (("format" ∈ (p.toJson (JsonVariant.object [])).keys ↔ p.format ≠ "") ∧
      (p.format ≠ "" →
        (p.toJson (JsonVariant.object [])).getMember "format" = JsonVariant.string p.format)) ∧
    (("default" ∈ (p.toJson (JsonVariant.object [])).keys ↔ p.defaultValue ≠ "") ∧
      (p.defaultValue ≠ "" →
        (p.toJson (JsonVariant.object [])).getMember "default" =
          JsonVariant.string p.defaultValue)) ∧
    "defaultValue" ∉ (p.toJson (JsonVariant.object [])).keys := by
  rw [toJson_empty]
  simp only [mem_keys_object, getMember, schemaMembers, hasKey, findMember,
    hasKey_optional_append, hasKey_items_append, hasKey_optionalMember,
    findMember_optional_append, findMember_items_append, findMember_optionalMember]
  simp [length_pos_iff_ne_empty]

theorem findMember_itemsMember_some (child : Properties) :
    findMember "items" (itemsMember (some child)) = child.toJson (JsonVariant.object []) := by
  simp [itemsMember, findMember]

/-- C17. For every schema node, the serialized object has `properties`,
`required`, `enum`, `oneOf`, `anyOf`, `allOf` each exactly when the matching
collection is non-empty, `items` exactly when the node has an items child,
and `additionalProperties` exactly when it was explicitly set, then with the
stored boolean. `required` and `enum` are the arrays of the stored strings
in stored order, `oneOf`, `anyOf`, `allOf` the arrays of the serialized
children in stored order, and `items` the serialized child. -/
theorem schema_structural_fields (p : Properties) :
    ("properties" ∈ (p.toJson (JsonVariant.object [])).keys ↔ p.properties ≠ []) ∧
    (("required" ∈ (p.toJson (JsonVariant.object [])).keys ↔ p.required ≠ []) ∧
      (p.required ≠ [] →
        (p.toJson (JsonVariant.object [])).getMember "required" =
          JsonVariant.array (p.required.map JsonVariant.string))) ∧
    (("enum" ∈ (p.toJson (JsonVariant.object [])).keys ↔ p.enumValues ≠ []) ∧
      (p.enumValues ≠ [] →
        (p.toJson (JsonVariant.object [])).getMember "enum" =
          JsonVariant.array (p.enumValues.map JsonVariant.string))) ∧
    (("oneOf" ∈ (p.toJson (JsonVariant.object [])).keys ↔ p.oneOf ≠ []) ∧
      (p.oneOf ≠ [] →
        (p.toJson (JsonVariant.object [])).getMember "oneOf" =
          JsonVariant.array
            (p.oneOf.map (fun child => child.toJson (JsonVariant.object []))))) ∧
    (("anyOf" ∈ (p.toJson (JsonVariant.object [])).keys ↔ p.anyOf ≠ []) ∧
      (p.anyOf ≠ [] →
        (p.toJson (JsonVariant.object [])).getMember "anyOf" =
          JsonVariant.array
            (p.anyOf.map (fun child => child.toJson (JsonVariant.object []))))) ∧
    (("allOf" ∈ (p.toJson (JsonVariant.object [])).keys ↔ p.allOf ≠ []) ∧
      (p.allOf ≠ [] →
        (p.toJson (JsonVariant.object [])).getMember "allOf" =
          JsonVariant.array
            (p.allOf.map (fun child => child.toJson (JsonVariant.object []))))) ∧
    (("items" ∈ (p.toJson (JsonVariant.object [])).keys ↔ p.items.isSome = true) ∧
      (∀ child, p.items = some child →
        (p.toJson (JsonVariant.object [])).getMember "items" =
          child.toJson (JsonVariant.object []))) ∧
    (("additionalProperties" ∈ (p.toJson (JsonVariant.object [])).keys ↔
        p.hasAdditionalProperties = true) ∧
      (p.hasAdditionalProperties = true →
        (p.toJson (JsonVariant.object [])).getMember "additionalProperties" =
          JsonVariant.boolean p.additionalProperties)) := by
  rw [toJson_empty]
  simp only [mem_keys_object, getMember, schemaMembers, hasKey, findMember,
    hasKey_optional_append, hasKey_items_append, hasKey_optionalMember,
    findMember_optional_append, findMember_items_append, findMember_optionalMember,
    addStrings_array, schemasToJson_array, List.nil_append]
  refine ⟨?_, ⟨?_, ?_⟩, ⟨?_, ?_⟩, ⟨?_, ?_⟩, ⟨?_, ?_⟩, ⟨?_, ?_⟩, ⟨?_, ?_⟩, ⟨?_, ?_⟩⟩
  · simp
  · simp
  · intro h; simp [h]
  · simp
  · intro h; simp [h]
  · simp
  · intro h; simp [h]
  · simp
  · intro h; simp [h]
  · simp
  · intro h; simp [h]
  · simp
  · intro child h; simp [h, findMember_itemsMember_some]
  · simp
  · intro h; simp [h]

/-! ## tools/list entries -/

theorem toolEntry_eq (key : String) (value : Tool) :
    toolEntry key value =
      JsonVariant.object
        ([("name", JsonVariant.string key),
          ("description", JsonVariant.string value.description),
          ("inputSchema", value.inputSchema.toJson (JsonVariant.object []))] ++
          (if value.outputSchema.type = "" then []
            else [("outputSchema", value.outputSchema.toJson (JsonVariant.object []))])) := by
  by_cases h : value.outputSchema.type = ""
  · have hl : ¬ value.outputSchema.type.length > 0 := by
      rw [length_pos_iff_ne_empty]
      exact not_not.mpr h
    simp [toolEntry, setMember, assignMember, h]
  · have hl : value.outputSchema.type.length > 0 := (length_pos_iff_ne_empty _).mpr h
    simp [toolEntry, setMember, assignMember, h, hl]

/-- C19. For every registry, the tools/list response has HTTP 200, no error
and the result `{"tools": [...]}` with one object per registry entry, in
registry order. Each object has `name`, the registry key, `description`,
`inputSchema`, the serialized input schema, and `outputSchema`, the
serialized output schema, exactly when the output schema's `type` is
non-empty; it has no other key. -/
theorem tools_list_entries (lib : ArduinoJson) (self : MCPServer) (request : MCPRequest)
    (hmethod : request.method = "tools/list") :
    (∃ response,
      (handle lib self request).returned = Except.ok response ∧
      (handle lib self request).invoked = [] ∧
      response.code = 200 ∧
      response.hasError = false ∧
      response.result =
        JsonVariant.object
          [("tools", JsonVariant.array
            (self.tools.map (fun entry => toolEntry entry.1 entry.2)))]) ∧
    (∀ (key : String) (tool : Tool),
      (toolEntry key tool).keys =
        ["name", "description", "inputSchema"] ++
          (if tool.outputSchema.type = "" then [] else ["outputSchema"]) ∧
      (toolEntry key tool).getMember "name" = JsonVariant.string key ∧
      (toolEntry key tool).getMember "description" = JsonVariant.string tool.description ∧
      (toolEntry key tool).getMember "inputSchema" =
        tool.inputSchema.toJson (JsonVariant.object []) ∧
      ("outputSchema" ∈ (toolEntry key tool).keys ↔ tool.outputSchema.type ≠ "") ∧
      (tool.outputSchema.type ≠ "" →
        (toolEntry key tool).getMember "outputSchema" =
          tool.outputSchema.toJson (JsonVariant.object []))) := by
  constructor
  · rw [handle_tools_list lib self request hmethod]
    refine ⟨_, rfl, rfl, rfl, rfl, ?_⟩
    simp [handleToolsList, MCPResponse.result, setMember, assignMember, addTools_array]
  · intro key tool
    rw [toolEntry_eq]
    by_cases h : tool.outputSchema.type = ""
    · simp [h, keys, getMember, findMember]
    · simp [h, keys, getMember, findMember]

/-- C19 at a registry with two tools, one of them with an output schema. -/
theorem tools_list_entries_witness :
    listRequest.method = "tools/list" ∧
    ∃ response,
      (handle Sample.json (echoServer.RegisterTool pointTool) listRequest).returned =
        Except.ok response ∧
      (handle Sample.json (echoServer.RegisterTool pointTool) listRequest).invoked = [] ∧
      response.code = 200 ∧
      response.hasError = false ∧
      response.result =
        JsonVariant.object
          [("tools", JsonVariant.array
            ((echoServer.RegisterTool pointTool).tools.map
              (fun entry => toolEntry entry.1 entry.2)))] :=
  ⟨rfl, (tools_list_entries Sample.json (echoServer.RegisterTool pointTool) listRequest rfl).1⟩

theorem point_registry :
    (echoServer.RegisterTool pointTool).tools =
      [("echo", demoTool "echo" (some echoHandler)), ("point", pointTool)] := by
  have h1 : ¬ "point" < "echo" := by
    rw [String.lt_iff_toList_lt]
    decide
  have h2 : "echo" < "point" := by
    rw [String.lt_iff_toList_lt]
    decide
  have hecho : echoServer.tools = [("echo", demoTool "echo" (some echoHandler))] := rfl
  have hname : pointTool.name = "point" := rfl
  rw [RegisterTool, hecho, tool_copy_eq, hname]
  simp only [mapAssign, h1, h2, if_true, if_false]

set_option maxRecDepth 20000 in
/-- The tools/list response text for the echo tool and the point tool. -/
theorem tools_list_response_text :
    serializeResponse Sample.json
        (handleToolsList (echoServer.RegisterTool pointTool) listRequest) =
      "\x7b\"id\":1,\"jsonrpc\":\"2.0\",\"result\":\x7b\"tools\":[" ++
      "\x7b\"name\":\"echo\",\"description\":\"\",\"inputSchema\":\x7b\"type\":\"\"\x7d\x7d," ++
      "\x7b\"name\":\"point\",\"description\":\"Reads a point\",\"inputSchema\":" ++
      "\x7b\"type\":\"object\",\"properties\":\x7b\"label\":\x7b\"type\":\"string\"," ++
      "\"title\":\"Label\"\x7d,\"tags\":\x7b\"type\":\"array\",\"items\":\x7b\"type\":" ++
      "\"string\",\"enum\":[\"a\",\"b\"]\x7d\x7d\x7d,\"required\":[\"label\"]," ++
      "\"additionalProperties\":false,\"oneOf\":[\x7b\"type\":\"null\"\x7d," ++
      "\x7b\"type\":\"integer\",\"default\":\"5\"\x7d]\x7d,\"outputSchema\":" ++
      "\x7b\"type\":\"integer\",\"default\":\"5\"\x7d\x7d]\x7d\x7d" := by
  rw [serializeResponse, handleToolsList, point_registry]
  decide

/-! ## parseRequest on valid JSON -/

theorem getMember_non_object (doc : JsonVariant) (key : String)
    (h : ∀ members, doc ≠ JsonVariant.object members) : doc.getMember key = JsonVariant.null := by
  cases doc with
  | object members => exact absurd rfl (h members)
  | _ => rfl

/-- C20, as stated, fails. The valid text `{"id":5,"method":""}` has the
empty string as `method`, and the envelope keeps the id 5; the valid text
`{"id":5}` has no `method`, and the envelope has the method `null` and the
id 5; the valid text `[1,2]` is not an object, and the envelope has the
method `null`. -/
theorem unusable_method_envelope :
    Sample.json.deserializeJson emptyMethodText =
      Except.ok (JsonVariant.object
        [("id", JsonVariant.integer 5), ("method", JsonVariant.string "")]) ∧
    (parseRequest Sample.json emptyMethodText).method = "" ∧
    (parseRequest Sample.json emptyMethodText).id = JsonVariant.integer 5 ∧
    (parseRequest Sample.json emptyMethodText).id ≠ JsonVariant.null ∧
    Sample.json.deserializeJson noMethodText =
      Except.ok (JsonVariant.object [("id", JsonVariant.integer 5)]) ∧
    (parseRequest Sample.json noMethodText).method = "null" ∧
    (parseRequest Sample.json noMethodText).method ≠ "" ∧
    (parseRequest Sample.json noMethodText).id = JsonVariant.integer 5 ∧
    Sample.json.deserializeJson arrayText =
      Except.ok (JsonVariant.array [JsonVariant.integer 1, JsonVariant.integer 2]) ∧
    (parseRequest Sample.json arrayText).method = "null" := by
  refine ⟨rfl, rfl, rfl, ?_, rfl, rfl, ?_, rfl, rfl, rfl⟩
  · have h : (parseRequest Sample.json emptyMethodText).id = JsonVariant.integer 5 := rfl
    rw [h]
    intro hnull
    cases hnull
  · have h : (parseRequest Sample.json noMethodText).method = "null" := rfl
    rw [h]
    decide

/-- C20, amended. For every request text that is valid JSON, the envelope's
id and params are the document's `id` and `params` members (null when the
key is absent or the top-level value is not an object), whatever the
`method`. The envelope's method is the `method` member when that is a string,
so it is empty when the member is the empty string; for every other member
it is that member's JSON text, which is the non-empty text `null` when the
top-level value is not an object or `method` is absent or null. -/
theorem parse_valid_json (lib : ArduinoJson) (text : String) (doc : JsonVariant)
    (hparse : lib.deserializeJson text = Except.ok doc) :
    (parseRequest lib text).id = doc.getMember "id" ∧
    (parseRequest lib text).params = doc.getMember "params" ∧
    (∀ s, doc.getMember "method" = JsonVariant.string s → (parseRequest lib text).method = s) ∧
    (doc.getMember "method" = JsonVariant.string "" → (parseRequest lib text).method = "") ∧
    ((∀ s, doc.getMember "method" ≠ JsonVariant.string s) →
      (parseRequest lib text).method = serializeJson lib (doc.getMember "method")) ∧
    (doc.getMember "method" = JsonVariant.null →
      (parseRequest lib text).method = "null" ∧ (parseRequest lib text).method ≠ "") ∧
    ((∀ members, doc ≠ JsonVariant.object members) →
      (parseRequest lib text).method = "null" ∧
      (parseRequest lib text).id = JsonVariant.null) ∧
    (∀ members, doc = JsonVariant.object members → hasKey "method" members = false →
      (parseRequest lib text).method = "null") ∧
    (∀ members, doc = JsonVariant.object members → hasKey "id" members = false →
      (parseRequest lib text).id = JsonVariant.null) := by
  rw [parseRequest_ok lib text doc hparse]
  have hnull : doc.getMember "method" = JsonVariant.null →
      asStdString lib (doc.getMember "method") = "null" := by
    intro h
    rw [h]
    rfl
  refine ⟨rfl, rfl, ?_, ?_, ?_, ?_, ?_, ?_, ?_⟩
  · intro s hs
    show asStdString lib (doc.getMember "method") = s
    rw [hs]
    rfl
  · intro hs
    show asStdString lib (doc.getMember "method") = ""
    rw [hs]
    rfl
  · intro hs
    show asStdString lib (doc.getMember "method") = serializeJson lib (doc.getMember "method")
    cases hm : doc.getMember "method" with
    | string s => exact absurd hm (hs s)
    | _ => rfl
  · intro h
    show asStdString lib (doc.getMember "method") = "null" ∧
      asStdString lib (doc.getMember "method") ≠ ""
    rw [hnull h]
    exact ⟨rfl, by decide⟩
  · intro h
    exact ⟨hnull (getMember_non_object doc "method" h), getMember_non_object doc "id" h⟩
  · intro members hdoc hkey
    exact hnull (getMember_of_hasKey_false doc "method" members hdoc hkey)
  · intro members hdoc hkey
    exact getMember_of_hasKey_false doc "id" members hdoc hkey

/-- C20 amended, at the valid text `{"id":5}`. -/
theorem parse_valid_json_witness :
    Sample.json.deserializeJson noMethodText =
      Except.ok (JsonVariant.object [("id", JsonVariant.integer 5)]) ∧
    (parseRequest Sample.json noMethodText).id =
      (JsonVariant.object [("id", JsonVariant.integer 5)]).getMember "id" ∧
    (parseRequest Sample.json noMethodText).method = "null" :=
  ⟨rfl,
    (parse_valid_json Sample.json noMethodText
      (JsonVariant.object [("id", JsonVariant.integer 5)]) rfl).1,
    (parse_valid_json Sample.json noMethodText
      (JsonVariant.object [("id", JsonVariant.integer 5)]) rfl).2.2.2.2.2.2.2.1
      [("id", JsonVariant.integer 5)] rfl rfl⟩

/-- What the dispatcher answers to the valid text `{"id":5}`: HTTP 200 and
an unknown-method error, not the parse error. -/
theorem no_method_response_text :
    (handle Sample.json demoServer (parseRequest Sample.json noMethodText)).returned =
      Except.ok (createJSONRPCError 200 (-32601) (JsonVariant.integer 5)
        "Method not found: null") ∧
    serializeResponse Sample.json
        (createJSONRPCError 200 (-32601) (JsonVariant.integer 5) "Method not found: null") =
      "\x7b\"id\":5,\"jsonrpc\":\"2.0\",\"error\":\x7b\"code\":-32601,\"message\":\"Method not found: null\"\x7d\x7d" :=
  ⟨rfl, rfl⟩

/-! ## Reading a serialized schema back -/

theorem hasKey_append_single (key k : String) (v : JsonVariant)
    (l : List (String × JsonVariant)) (hl : hasKey key l = false) (hk : k ≠ key) :
    hasKey key (l ++ [(k, v)]) = false := by
  rw [hasKey_append, hl]
  simp [hasKey, hk]

/-- On a map with distinct keys none of which is in the object yet, the loop
over `properties` appends one member per entry, in order. -/
theorem propertiesToJson_object (entries : List (String × Properties)) :
    ∀ acc : List (String × JsonVariant),
      (∀ entry ∈ entries, hasKey entry.1 acc = false) →
      (entries.map Prod.fst).Pairwise (fun a b => a ≠ b) →
      propertiesToJson entries (JsonVariant.object acc) =
        JsonVariant.object
          (acc ++ entries.map (fun entry => (entry.1, entry.2.toJson (JsonVariant.object [])))) := by
  induction entries with
  | nil => intro acc _ _; simp [propertiesToJson]
  | cons e rest ih =>
    intro acc hfresh hdistinct
    obtain ⟨k, v⟩ := e
    rw [List.map_cons, List.pairwise_cons] at hdistinct
    obtain ⟨hhead, htail⟩ := hdistinct
    have hk : hasKey k acc = false := hfresh (k, v) (List.mem_cons_self _ _)
    have hstep : (JsonVariant.object acc).setMember k (v.toJson (JsonVariant.object [])) =
        JsonVariant.object (acc ++ [(k, v.toJson (JsonVariant.object []))]) := by
      simp [setMember, assignMember_fresh k _ acc hk]
    simp only [propertiesToJson, hstep]
    rw [ih _ ?_ htail]
    · simp
    · intro entry hmem
      apply hasKey_append_single
      · exact hfresh entry (List.mem_cons_of_mem _ hmem)
      · exact hhead entry.1 (List.mem_map_of_mem Prod.fst hmem)

theorem pairwise_ne_of_lt (keys : List String)
    (h : keys.Pairwise (fun a b => a < b)) : keys.Pairwise (fun a b => a ≠ b) :=
  h.imp (fun hab => ne_of_lt hab)

theorem propertiesToJson_sorted (entries : List (String × Properties))
    (h : (entries.map Prod.fst).Pairwise (fun a b => a < b)) :
    propertiesToJson entries (JsonVariant.object []) =
      JsonVariant.object
        (entries.map (fun entry => (entry.1, entry.2.toJson (JsonVariant.object [])))) := by
  have := propertiesToJson_object entries [] (fun _ _ => rfl) (pairwise_ne_of_lt _ h)
  simpa using this

theorem readItemsMember_cons (k : String) (v : JsonVariant) (rest : List (String × JsonVariant)) :
    readItemsMember ((k, v) :: rest) =
      if k = "items" then some (readSchema v) else readItemsMember rest := by
  rw [readItemsMember]

theorem readPropertiesMember_cons_ne (k : String) (v : JsonVariant)
    (rest : List (String × JsonVariant)) (hk : k ≠ "properties") :
    readPropertiesMember ((k, v) :: rest) = readPropertiesMember rest := by
  cases v <;> simp [readPropertiesMember, hk]

theorem readPropertiesMember_cons_object (entries rest : List (String × JsonVariant)) :
    readPropertiesMember (("properties", JsonVariant.object entries) :: rest) =
      readEntries entries := by
  rw [readPropertiesMember]
  simp

theorem readSchemasMember_cons_ne (name k : String) (v : JsonVariant)
    (rest : List (String × JsonVariant)) (hk : k ≠ name) :
    readSchemasMember name ((k, v) :: rest) = readSchemasMember name rest := by
  cases v <;> simp [readSchemasMember, hk]

theorem readSchemasMember_cons_array (name : String) (elements : List JsonVariant)
    (rest : List (String × JsonVariant)) :
    readSchemasMember name ((name, JsonVariant.array elements) :: rest) =
      readSchemas elements := by
  rw [readSchemasMember]
  simp

theorem readSchema_object (members : List (String × JsonVariant)) :
    readSchema (JsonVariant.object members) =
    { type := textOf (JsonVariant.findMember "type" members)
      title := textOf (JsonVariant.findMember "title" members)
      description := textOf (JsonVariant.findMember "description" members)
      properties := readPropertiesMember members
      required := textsOf (JsonVariant.findMember "required" members)
      additionalProperties := flagOf (JsonVariant.findMember "additionalProperties" members)
      hasAdditionalProperties := JsonVariant.hasKey "additionalProperties" members
      items := readItemsMember members
      enumValues := textsOf (JsonVariant.findMember "enum" members)
      oneOf := readSchemasMember "oneOf" members
      anyOf := readSchemasMember "anyOf" members
      allOf := readSchemasMember "allOf" members
      format := textOf (JsonVariant.findMember "format" members)
      defaultValue := textOf (JsonVariant.findMember "default" members) } := by
  rw [readSchema]
theorem readItems_optional_append (present : Prop) [Decidable present] (k : String)
    (v : JsonVariant) (rest : List (String × JsonVariant)) (hk : k ≠ "items") :
    readItemsMember (optionalMember present k v ++ rest) = readItemsMember rest := by
  by_cases h : present
  · simp [optionalMember, h, readItemsMember_cons, hk]
  · simp [optionalMember, h]

theorem readItems_optionalMember (present : Prop) [Decidable present] (k : String)
    (v : JsonVariant) (hk : k ≠ "items") :
    readItemsMember (optionalMember present k v) = none := by
  by_cases h : present
  · simp [optionalMember, h, readItemsMember_cons, hk, readItemsMember]
  · simp [optionalMember, h, readItemsMember]

theorem readProperties_optional_append (present : Prop) [Decidable present] (k : String)
    (v : JsonVariant) (rest : List (String × JsonVariant)) (hk : k ≠ "properties") :
    readPropertiesMember (optionalMember present k v ++ rest) = readPropertiesMember rest := by
  by_cases h : present
  · simp [optionalMember, h, readPropertiesMember_cons_ne _ _ _ hk]
  · simp [optionalMember, h]

theorem readProperties_optionalMember (present : Prop) [Decidable present] (k : String)
    (v : JsonVariant) (hk : k ≠ "properties") :
    readPropertiesMember (optionalMember present k v) = [] := by
  by_cases h : present
  · simp [optionalMember, h, readPropertiesMember_cons_ne _ _ _ hk, readPropertiesMember]
  · simp [optionalMember, h, readPropertiesMember]

theorem readProperties_items_append (items : Option Properties)
    (rest : List (String × JsonVariant)) :
    readPropertiesMember (itemsMember items ++ rest) = readPropertiesMember rest := by
  cases items with
  | none => simp [itemsMember]
  | some child =>
    simp [itemsMember, readPropertiesMember_cons_ne "items" _ _ (by decide)]

theorem readSchemas_optional_append (name : String) (present : Prop) [Decidable present]
    (k : String) (v : JsonVariant) (rest : List (String × JsonVariant)) (hk : k ≠ name) :
    readSchemasMember name (optionalMember present k v ++ rest) =
      readSchemasMember name rest := by
  by_cases h : present
  · simp [optionalMember, h, readSchemasMember_cons_ne _ _ _ _ hk]
  · simp [optionalMember, h]

theorem readSchemas_optionalMember (name : String) (present : Prop) [Decidable present]
    (k : String) (v : JsonVariant) (hk : k ≠ name) :
    readSchemasMember name (optionalMember present k v) = [] := by
  by_cases h : present
  · simp [optionalMember, h, readSchemasMember_cons_ne _ _ _ _ hk, readSchemasMember]
  · simp [optionalMember, h, readSchemasMember]

theorem readSchemas_items_append (name : String) (items : Option Properties)
    (rest : List (String × JsonVariant)) (hk : "items" ≠ name) :
    readSchemasMember name (itemsMember items ++ rest) = readSchemasMember name rest := by
  cases items with
  | none => simp [itemsMember]
  | some child => simp [itemsMember, readSchemasMember_cons_ne _ _ _ _ hk]

theorem textOf_guarded (s : String) :
    textOf (if s.length > 0 then JsonVariant.string s else JsonVariant.null) = s := by
  by_cases h : s = ""
  · subst h
    rfl
  · have hl : s.length > 0 := (length_pos_iff_ne_empty s).mpr h
    simp [hl, textOf]

theorem textsOf_strings (values : List String) :
    textsOf (JsonVariant.array (values.map JsonVariant.string)) = values := by
  induction values with
  | nil => rfl
  | cons s rest ih =>
    simp only [textsOf, List.map_cons, List.map_map] at ih ⊢
    rw [ih]
    rfl

theorem textsOf_guarded (values : List String) :
    textsOf (if (!values.isEmpty) = true then addStrings values (JsonVariant.array [])
      else JsonVariant.null) = values := by
  cases values with
  | nil => rfl
  | cons s rest =>
    rw [addStrings_array]
    simp only [List.isEmpty_cons, Bool.not_false, if_true, List.nil_append]
    exact textsOf_strings (s :: rest)

theorem schema_text_fields (p : Properties) :
    textOf (findMember "type" (schemaMembers p)) = p.type ∧
    textOf (findMember "title" (schemaMembers p)) = p.title ∧
    textOf (findMember "description" (schemaMembers p)) = p.description ∧
    textOf (findMember "format" (schemaMembers p)) = p.format ∧
    textOf (findMember "default" (schemaMembers p)) = p.defaultValue := by
  simp only [schemaMembers, findMember, findMember_optional_append, findMember_items_append,
    findMember_optionalMember]
  refine ⟨?_, ?_, ?_, ?_, ?_⟩
  · simp [textOf]
  · simpa using textOf_guarded p.title
  · simpa using textOf_guarded p.description
  · simpa using textOf_guarded p.format
  · simpa using textOf_guarded p.defaultValue

theorem schema_list_fields (p : Properties) :
    textsOf (findMember "required" (schemaMembers p)) = p.required ∧
    textsOf (findMember "enum" (schemaMembers p)) = p.enumValues ∧
    hasKey "additionalProperties" (schemaMembers p) = p.hasAdditionalProperties ∧
    flagOf (findMember "additionalProperties" (schemaMembers p)) =
      (if p.hasAdditionalProperties then p.additionalProperties else true) := by
  simp only [schemaMembers, findMember, hasKey, findMember_optional_append,
    findMember_items_append, findMember_optionalMember, hasKey_optional_append,
    hasKey_items_append, hasKey_optionalMember]
  refine ⟨?_, ?_, ?_, ?_⟩
  · simpa using textsOf_guarded p.required
  · simpa using textsOf_guarded p.enumValues
  · simp
  · cases p.hasAdditionalProperties <;> simp [flagOf]

theorem readItemsMember_cons_ne (k : String) (v : JsonVariant)
    (rest : List (String × JsonVariant)) (hk : k ≠ "items") :
    readItemsMember ((k, v) :: rest) = readItemsMember rest := by
  rw [readItemsMember_cons]
  simp [hk]

theorem readItems_items_then (items : Option Properties)
    (rest : List (String × JsonVariant)) :
    readItemsMember (itemsMember items ++ rest) =
      if items.isSome = true then
        items.map (fun child => readSchema (child.toJson (JsonVariant.object [])))
      else readItemsMember rest := by
  cases items with
  | none => simp [itemsMember]
  | some child => simp [itemsMember, readItemsMember_cons]

theorem readSchemas_hit_then (name : String) (schemas : List Properties)
    (rest : List (String × JsonVariant)) :
    readSchemasMember name
        (optionalMember (!schemas.isEmpty) name
          (schemasToJson schemas (JsonVariant.array [])) ++ rest) =
      if schemas.isEmpty = true then readSchemasMember name rest
      else readSchemas (schemas.map (fun schema => schema.toJson (JsonVariant.object []))) := by
  cases schemas with
  | nil => simp [optionalMember]
  | cons s tail =>
    simp [optionalMember, schemasToJson_array, readSchemasMember_cons_array]

theorem readProperties_hit_then (entries : List (String × Properties))
    (hsorted : (entries.map Prod.fst).Pairwise (fun a b => a < b))
    (rest : List (String × JsonVariant)) :
    readPropertiesMember
        (optionalMember (!entries.isEmpty) "properties"
          (propertiesToJson entries (JsonVariant.object [])) ++ rest) =
      if entries.isEmpty = true then readPropertiesMember rest
      else readEntries
        (entries.map (fun entry => (entry.1, entry.2.toJson (JsonVariant.object [])))) := by
  cases entries with
  | nil => simp [optionalMember]
  | cons e tail =>
    rw [propertiesToJson_sorted _ hsorted]
    simp [optionalMember, readPropertiesMember_cons_object]

theorem schema_nested_fields (p : Properties)
    (hsorted : (p.properties.map Prod.fst).Pairwise (fun a b => a < b)) :
    readPropertiesMember (schemaMembers p) =
      readEntries
        (p.properties.map (fun entry => (entry.1, entry.2.toJson (JsonVariant.object [])))) ∧
    readItemsMember (schemaMembers p) =
      p.items.map (fun child => readSchema (child.toJson (JsonVariant.object []))) ∧
    readSchemasMember "oneOf" (schemaMembers p) =
      readSchemas (p.oneOf.map (fun schema => schema.toJson (JsonVariant.object []))) ∧
    readSchemasMember "anyOf" (schemaMembers p) =
      readSchemas (p.anyOf.map (fun schema => schema.toJson (JsonVariant.object []))) ∧
    readSchemasMember "allOf" (schemaMembers p) =
      readSchemas (p.allOf.map (fun schema => schema.toJson (JsonVariant.object []))) := by
  refine ⟨?_, ?_, ?_, ?_, ?_⟩
  · simp (disch := decide) only [schemaMembers, readPropertiesMember_cons_ne,
      readProperties_optional_append, readProperties_hit_then _ hsorted,
      readProperties_items_append, readProperties_optionalMember]
    cases p.properties <;> simp [readEntries]
  · simp (disch := decide) only [schemaMembers, readItemsMember_cons_ne,
      readItems_optional_append, readItems_items_then, readItems_optionalMember]
    cases p.items <;> simp
  · simp (disch := decide) only [schemaMembers, readSchemasMember_cons_ne,
      readSchemas_optional_append, readSchemas_items_append, readSchemas_hit_then,
      readSchemas_optionalMember]
    cases p.oneOf <;> simp [readSchemas]
  · simp (disch := decide) only [schemaMembers, readSchemasMember_cons_ne,
      readSchemas_optional_append, readSchemas_items_append, readSchemas_hit_then,
      readSchemas_optionalMember]
    cases p.anyOf <;> simp [readSchemas]
  · simp (disch := decide) only [schemaMembers, readSchemasMember_cons_ne,
      readSchemas_optional_append, readSchemas_items_append, readSchemas_hit_then,
      readSchemas_optionalMember]
    cases p.allOf <;> simp [readSchemas]

/-- Reading back the serialization of a node whose `properties` keys are
ascending gives the node's own scalar fields, the stored
`additionalProperties` only if it was set, and the children read back from
their own serializations. -/
theorem readSchema_toJson (p : Properties)
    (hsorted : (p.properties.map Prod.fst).Pairwise (fun a b => a < b)) :
    readSchema (p.toJson (JsonVariant.object [])) =
      { type := p.type
        title := p.title
        description := p.description
        properties := readEntries
          (p.properties.map (fun entry => (entry.1, entry.2.toJson (JsonVariant.object []))))
        required := p.required
        additionalProperties :=
          if p.hasAdditionalProperties then p.additionalProperties else true
        hasAdditionalProperties := p.hasAdditionalProperties
        items := p.items.map (fun child => readSchema (child.toJson (JsonVariant.object [])))
        enumValues := p.enumValues
        oneOf := readSchemas (p.oneOf.map (fun s => s.toJson (JsonVariant.object [])))
        anyOf := readSchemas (p.anyOf.map (fun s => s.toJson (JsonVariant.object [])))
        allOf := readSchemas (p.allOf.map (fun s => s.toJson (JsonVariant.object [])))
        format := p.format
        defaultValue := p.defaultValue } := by
  obtain ⟨h1, h2, h3, h4, h5⟩ := schema_text_fields p
  obtain ⟨h6, h7, h8, h9⟩ := schema_list_fields p
  obtain ⟨h10, h11, h12, h13, h14⟩ := schema_nested_fields p hsorted
  rw [toJson_empty, readSchema_object, h1, h2, h3, h4, h5, h6, h7, h8, h9, h10, h11, h12, h13,
    h14]

mutual
/-- Reading back the serialization of a node with valid maps gives the node
with every never-set `additionalProperties` boolean at its default. -/
theorem read_toJson_canonical :
    ∀ p : Properties, p.validMaps = true →
      readSchema (p.toJson (JsonVariant.object [])) = p.canonical
  | ⟨type, title, description, properties, required, additionalProperties,
      hasAdditionalProperties, none, enumValues, oneOf, anyOf, allOf, format, defaultValue⟩ => by
    intro hvalid
    simp only [Properties.validMaps, Bool.and_eq_true, decide_eq_true_eq] at hvalid
    obtain ⟨⟨⟨⟨⟨hsorted, hentries⟩, -⟩, hone⟩, hany⟩, hall⟩ := hvalid
    rw [readSchema_toJson _ hsorted]
    simp only [Properties.canonical, Option.map_none',
      read_entries_canonical properties hentries, read_schemas_canonical oneOf hone,
      read_schemas_canonical anyOf hany, read_schemas_canonical allOf hall]
  | ⟨type, title, description, properties, required, additionalProperties,
      hasAdditionalProperties, some child, enumValues, oneOf, anyOf, allOf, format,
      defaultValue⟩ => by
    intro hvalid
    simp only [Properties.validMaps, Bool.and_eq_true, decide_eq_true_eq] at hvalid
    obtain ⟨⟨⟨⟨⟨hsorted, hentries⟩, hchild⟩, hone⟩, hany⟩, hall⟩ := hvalid
    rw [readSchema_toJson _ hsorted]
    simp only [Properties.canonical, Option.map_some',
      read_toJson_canonical child hchild,
      read_entries_canonical properties hentries, read_schemas_canonical oneOf hone,
      read_schemas_canonical anyOf hany, read_schemas_canonical allOf hall]
theorem read_entries_canonical :
    ∀ entries : List (String × Properties), validEntries entries = true →
      readEntries
          (entries.map (fun entry => (entry.1, entry.2.toJson (JsonVariant.object [])))) =
        canonicalEntries entries
  | [] => by
    intro _
    simp [readEntries, canonicalEntries]
  | (key, value) :: rest => by
    intro hvalid
    simp only [validEntries, Bool.and_eq_true] at hvalid
    simp only [List.map_cons, readEntries, canonicalEntries,
      read_toJson_canonical value hvalid.1, read_entries_canonical rest hvalid.2]
theorem read_schemas_canonical :
    ∀ schemas : List Properties, validSchemas schemas = true →
      readSchemas (schemas.map (fun schema => schema.toJson (JsonVariant.object []))) =
        canonicalSchemas schemas
  | [] => by
    intro _
    simp [readSchemas, canonicalSchemas]
  | schema :: rest => by
    intro hvalid
    simp only [validSchemas, Bool.and_eq_true] at hvalid
    simp only [List.map_cons, readSchemas, canonicalSchemas,
      read_toJson_canonical schema hvalid.1, read_schemas_canonical rest hvalid.2]
end

theorem canonical_fields (n : Properties) :
    n.canonical.type = n.type ∧
    n.canonical.title = n.title ∧
    n.canonical.description = n.description ∧
    n.canonical.format = n.format ∧
    n.canonical.defaultValue = n.defaultValue ∧
    n.canonical.required = n.required ∧
    n.canonical.enumValues = n.enumValues ∧
    n.canonical.hasAdditionalProperties = n.hasAdditionalProperties ∧
    (n.hasAdditionalProperties = true →
      n.canonical.additionalProperties = n.additionalProperties) ∧
    n.canonical.properties = canonicalEntries n.properties ∧
    n.canonical.items = n.items.map Properties.canonical ∧
    n.canonical.oneOf = canonicalSchemas n.oneOf ∧
    n.canonical.anyOf = canonicalSchemas n.anyOf ∧
    n.canonical.allOf = canonicalSchemas n.allOf := by
  obtain ⟨type, title, description, properties, required, additionalProperties,
    hasAdditionalProperties, items, enumValues, oneOf, anyOf, allOf, format, defaultValue⟩ := n
  cases items with
  | none =>
    simp only [Properties.canonical, Option.map_none', true_and, and_true]
    intro h
    simp [h]
  | some child =>
    simp only [Properties.canonical, Option.map_some', true_and, and_true]
    intro h
    simp [h]

theorem canonicalEntries_keys (entries : List (String × Properties)) :
    (canonicalEntries entries).map Prod.fst = entries.map Prod.fst := by
  induction entries with
  | nil => rfl
  | cons e rest ih =>
    obtain ⟨k, v⟩ := e
    simp [canonicalEntries, ih]

/-- C18. The reader `readSchema` inverts the serializer on every schema node
whose `properties` maps are maps (ascending, distinct keys, as in a
`std::map`), at any depth: the node read back has the same type, title,
description, format, defaultValue, required, enumValues and
hasAdditionalProperties, the same additionalProperties whenever it was set,
and properties, items, oneOf, anyOf, allOf that are the children read back
in the same way. Two such nodes with equal serializations have equal
canonical forms: they differ at most in never-set additionalProperties
booleans. -/
theorem schema_round_trip (n : Properties) (hvalid : n.validMaps = true) :
    readSchema (n.toJson (JsonVariant.object [])) = n.canonical ∧
    ((readSchema (n.toJson (JsonVariant.object []))).type = n.type ∧
      (readSchema (n.toJson (JsonVariant.object []))).title = n.title ∧
      (readSchema (n.toJson (JsonVariant.object []))).description = n.description ∧
      (readSchema (n.toJson (JsonVariant.object []))).format = n.format ∧
      (readSchema (n.toJson (JsonVariant.object []))).defaultValue = n.defaultValue ∧
      (readSchema (n.toJson (JsonVariant.object []))).required = n.required ∧
      (readSchema (n.toJson (JsonVariant.object []))).enumValues = n.enumValues ∧
      (readSchema (n.toJson (JsonVariant.object []))).hasAdditionalProperties =
        n.hasAdditionalProperties ∧
      (n.hasAdditionalProperties = true →
        (readSchema (n.toJson (JsonVariant.object []))).additionalProperties =
          n.additionalProperties) ∧
      (readSchema (n.toJson (JsonVariant.object []))).properties =
        canonicalEntries n.properties ∧
      (readSchema (n.toJson (JsonVariant.object []))).items =
        n.items.map Properties.canonical ∧
      (readSchema (n.toJson (JsonVariant.object []))).oneOf = canonicalSchemas n.oneOf ∧
      (readSchema (n.toJson (JsonVariant.object []))).anyOf = canonicalSchemas n.anyOf ∧
      (readSchema (n.toJson (JsonVariant.object []))).allOf = canonicalSchemas n.allOf) ∧
    (∀ m : Properties, m.validMaps = true →
      n.toJson (JsonVariant.object []) = m.toJson (JsonVariant.object []) →
      n.canonical = m.canonical) := by
  have hread := read_toJson_canonical n hvalid
  refine ⟨hread, ?_, ?_⟩
  · rw [hread]
    exact canonical_fields n
  · intro m hm heq
    rw [← hread, heq]
    exact read_toJson_canonical m hm

theorem pointSchema_valid : pointSchema.validMaps = true := by
  simp [pointSchema, schemaWithDefault, Properties.blank, Properties.validMaps, validEntries,
    validSchemas]
  decide

/-- C18 at an object schema with two properties, a nested items child and
two alternatives. -/
theorem schema_round_trip_witness :
    pointSchema.validMaps = true ∧
    readSchema (pointSchema.toJson (JsonVariant.object [])) = pointSchema.canonical ∧
    pointSchema.canonical = pointSchema :=
  ⟨pointSchema_valid, (schema_round_trip pointSchema pointSchema_valid).1, rfl⟩

/-- Why the never-set boolean is excluded: a node that stores
`additionalProperties = false` without having set it reads back with the
default `true`. -/
theorem unset_flag_reads_default :
    ({ Properties.blank with type := "object", additionalProperties := false }).validMaps
      = true ∧
    (readSchema
      (({ Properties.blank with type := "object", additionalProperties := false }).toJson
        (JsonVariant.object []))).additionalProperties = true ∧
    ({ Properties.blank with type := "object", additionalProperties := false }).toJson
        (JsonVariant.object []) =
      ({ Properties.blank with type := "object" }).toJson (JsonVariant.object []) :=
  ⟨rfl, rfl, rfl⟩

/-! ## Schemas are not enforced -/

theorem mapFind_handler_same (key : String) (left : List (String × Tool)) :
    ∀ right : List (String × Tool), sameExceptSchemas left right →
      (mapFind key left).map Tool.handler = (mapFind key right).map Tool.handler := by
  induction left with
  | nil =>
    intro right h
    cases h
    rfl
  | cons a l ih =>
    intro right h
    obtain ⟨b, r, hab, htail, hright⟩ := List.forall₂_cons_left_iff.mp h
    subst hright
    obtain ⟨ka, ta⟩ := a
    obtain ⟨kb, tb⟩ := b
    obtain ⟨hk, -, -, hh⟩ := hab
    simp only at hk hh
    subst hk
    by_cases hkey : ka = key
    · simp [mapFind, hkey, hh]
    · simp [mapFind, hkey, ih r htail]

/-- The tools/call route reads the registry only through the handler found
under the requested name. -/
theorem handleFunctionCalls_same (lib : ArduinoJson) (left right : MCPServer)
    (request : MCPRequest)
    (h : ∀ key, (mapFind key left.tools).map Tool.handler =
      (mapFind key right.tools).map Tool.handler) :
    handleFunctionCalls lib left request = handleFunctionCalls lib right request := by
  rcases isString_false_or (request.params.getMember "name") with hname | ⟨name, hname⟩
  · rw [handleFunctionCalls_invalid lib left request hname,
      handleFunctionCalls_invalid lib right request hname]
  · have hkey := h (c_str name)
    cases hl : mapFind (c_str name) left.tools with
    | none =>
      cases hr : mapFind (c_str name) right.tools with
      | none =>
        rw [handleFunctionCalls_missing lib left request name hname hl,
          handleFunctionCalls_missing lib right request name hname hr]
      | some tr => simp [hl, hr] at hkey
    | some tl =>
      cases hr : mapFind (c_str name) right.tools with
      | none => simp [hl, hr] at hkey
      | some tr =>
        have hh : tl.handler = tr.handler := by simpa [hl, hr] using hkey
        cases hhl : tl.handler with
        | none =>
          rw [handleFunctionCalls_unbound lib left request name tl hname hl hhl,
            handleFunctionCalls_unbound lib right request name tr hname hr (hh ▸ hhl)]
        | some handler =>
          have hhr : tr.handler = some handler := hh ▸ hhl
          cases hres : handler (request.params.getMember "arguments") with
          | ok value =>
            rw [handleFunctionCalls_returns lib left request name tl handler value hname hl
                hhl hres,
              handleFunctionCalls_returns lib right request name tr handler value hname hr
                hhr hres]
          | error failure =>
            rw [handleFunctionCalls_fails lib left request name tl handler failure hname hl
                hhl hres,
              handleFunctionCalls_fails lib right request name tr handler failure hname hr
                hhr hres]

/-- C21. For every tools/call request, two servers whose registries have the
same keys, tool names, descriptions and handlers, entry by entry, and any
input and output schemas, give the same outcome: the same response (or the
same escaping failure) and the same handler invocations. When a handler is
invoked, its argument is the request's `params.arguments`, unchanged. -/
theorem schemas_not_enforced (lib : ArduinoJson) (left right : MCPServer)
    (request : MCPRequest)
    (hmethod : request.method = "tools/call")
    (hsame : sameExceptSchemas left.tools right.tools) :
    handle lib left request = handle lib right request ∧
    (∀ invocation ∈ (handle lib left request).invoked,
      invocation.2 = request.params.getMember "arguments") := by
  constructor
  · rw [handle_tools_call lib left request hmethod, handle_tools_call lib right request hmethod]
    exact handleFunctionCalls_same lib left right request
      (fun key => mapFind_handler_same key _ _ hsame)
  · intro invocation hmem
    rw [handle_tools_call lib left request hmethod] at hmem
    rcases isString_false_or (request.params.getMember "name") with hname | ⟨name, hname⟩
    · rw [handleFunctionCalls_invalid lib left request hname] at hmem
      cases hmem
    · cases hl : mapFind (c_str name) left.tools with
      | none =>
        rw [handleFunctionCalls_missing lib left request name hname hl] at hmem
        cases hmem
      | some tl =>
        cases hhl : tl.handler with
        | none =>
          rw [handleFunctionCalls_unbound lib left request name tl hname hl hhl] at hmem
          cases hmem
        | some handler =>
          cases hres : handler (request.params.getMember "arguments") with
          | ok value =>
            rw [handleFunctionCalls_returns lib left request name tl handler value hname hl
              hhl hres] at hmem
            simp only [List.mem_singleton] at hmem
            rw [hmem]
          | error failure =>
            rw [handleFunctionCalls_fails lib left request name tl handler failure hname hl
              hhl hres] at hmem
            simp only [List.mem_singleton] at hmem
            rw [hmem]

theorem echo_registries_same : sameExceptSchemas echoServer.tools strictEchoServer.tools := by
  have h1 : echoServer.tools = [("echo", demoTool "echo" (some echoHandler))] := rfl
  have h2 : strictEchoServer.tools = [("echo", strictEchoTool)] := rfl
  rw [h1, h2]
  exact List.Forall₂.cons ⟨rfl, rfl, rfl, rfl⟩ List.Forall₂.nil

/-- C21 at the echo tool advertised once with blank schemas and once with an
input schema that requires `label`: the arguments `{"x":1}` violate the
strict schema and are passed to the handler all the same. -/
theorem schemas_not_enforced_witness :
    (echoRequest.method = "tools/call" ∧
      sameExceptSchemas echoServer.tools strictEchoServer.tools) ∧
    (handle Sample.json echoServer echoRequest =
        handle Sample.json strictEchoServer echoRequest ∧
      (∀ invocation ∈ (handle Sample.json echoServer echoRequest).invoked,
        invocation.2 = echoRequest.params.getMember "arguments")) ∧
    (handle Sample.json strictEchoServer echoRequest).invoked =
      [("echo", JsonVariant.object [("x", JsonVariant.integer 1)])] :=
  ⟨⟨rfl, echo_registries_same⟩,
    schemas_not_enforced Sample.json echoServer strictEchoServer echoRequest rfl
      echo_registries_same,
    rfl⟩

/-! ## Deterministic listing -/

theorem mapFind_none_of_lt {α : Type} (key k : String) (v : α) (rest : List (String × α))
    (hsorted : (((k, v) :: rest).map Prod.fst).Pairwise (fun a b => a < b))
    (hlt : key < k) : mapFind key ((k, v) :: rest) = none := by
  apply mapFind_eq_none
  intro entry hmem
  rw [List.map_cons, List.pairwise_cons] at hsorted
  rcases List.mem_cons.mp hmem with h | h
  · rw [h]
    exact ne_of_gt hlt
  · exact ne_of_gt (lt_trans hlt (hsorted.1 entry.1 (List.mem_map_of_mem Prod.fst h)))

theorem mapFind_head {α : Type} (k : String) (v : α) (rest : List (String × α)) :
    mapFind k ((k, v) :: rest) = some v := by
  simp [mapFind]

/-- Two maps with ascending keys and the same lookups are the same list. -/
theorem sorted_ext {α : Type} (left : List (String × α)) :
    ∀ right : List (String × α),
      (left.map Prod.fst).Pairwise (fun a b => a < b) →
      (right.map Prod.fst).Pairwise (fun a b => a < b) →
      (∀ key, mapFind key left = mapFind key right) → left = right := by
  induction left with
  | nil =>
    intro right _ _ hfind
    cases right with
    | nil => rfl
    | cons e r =>
      obtain ⟨k, v⟩ := e
      have h := hfind k
      rw [mapFind_head] at h
      cases h
  | cons e l ih =>
    intro right hl hr hfind
    obtain ⟨k1, v1⟩ := e
    cases right with
    | nil =>
      have h := hfind k1
      rw [mapFind_head] at h
      cases h
    | cons e2 r =>
      obtain ⟨k2, v2⟩ := e2
      have hkeys : k1 = k2 := by
        rcases lt_trichotomy k1 k2 with hlt | heq | hgt
        · have h := hfind k1
          rw [mapFind_head, mapFind_none_of_lt k1 k2 v2 r hr hlt] at h
          cases h
        · exact heq
        · have h := hfind k2
          rw [mapFind_head, mapFind_none_of_lt k2 k1 v1 l hl hgt] at h
          cases h
      subst hkeys
      have hvals : v1 = v2 := by
        have h := hfind k1
        rw [mapFind_head, mapFind_head] at h
        exact Option.some.inj h
      subst hvals
      have hl2 := hl
      have hr2 := hr
      rw [List.map_cons, List.pairwise_cons] at hl2 hr2
      have htail : l = r := by
        apply ih r hl2.2 hr2.2
        intro key
        by_cases hk : k1 = key
        · subst hk
          rw [mapFind_eq_none k1 l
              (fun entry hmem => ne_of_gt (hl2.1 entry.1 (List.mem_map_of_mem Prod.fst hmem))),
            mapFind_eq_none k1 r
              (fun entry hmem => ne_of_gt (hr2.1 entry.1 (List.mem_map_of_mem Prod.fst hmem)))]
        · have h := hfind key
          simpa [mapFind, hk] using h
      rw [htail]

theorem handleToolsList_of_tools (left right : MCPServer) (request : MCPRequest)
    (h : left.tools = right.tools) :
    handleToolsList left request = handleToolsList right request := by
  simp [handleToolsList, h]

theorem toolEntry_name (key : String) (tool : Tool) :
    textOf ((toolEntry key tool).getMember "name") = key := by
  rw [toolEntry_eq]
  simp [getMember, findMember, textOf]

theorem entryNames_tools (entries : List (String × Tool)) :
    entryNames (entries.map (fun entry => toolEntry entry.1 entry.2)) =
      entries.map Prod.fst := by
  induction entries with
  | nil => rfl
  | cons e rest ih =>
    obtain ⟨k, t⟩ := e
    simp only [entryNames, List.map_cons, List.map_map] at ih ⊢
    rw [ih, toolEntry_name]

theorem fresh_sorted (name version instructions : String) (registered : List Tool) :
    ((registerAll (MCPServer.create name version instructions) registered).tools.map
      Prod.fst).Pairwise (fun a b => a < b) :=
  registerAll_sorted registered (MCPServer.create name version instructions)
    (by simp [MCPServer.create])

theorem register_twice_find (tools : List (String × Tool)) (a b : Tool) (key : String)
    (hne : a.name ≠ b.name) :
    mapFind key (mapAssign b.name b.copy (mapAssign a.name a.copy tools)) =
      mapFind key (mapAssign a.name a.copy (mapAssign b.name b.copy tools)) := by
  by_cases hb : key = b.name
  · subst hb
    rw [mapFind_mapAssign_same, mapFind_mapAssign_other _ _ _ _ (Ne.symm hne),
      mapFind_mapAssign_same]
  · by_cases ha : key = a.name
    · subst ha
      rw [mapFind_mapAssign_other _ _ _ _ hne, mapFind_mapAssign_same,
        mapFind_mapAssign_same]
    · rw [mapFind_mapAssign_other _ _ _ _ hb, mapFind_mapAssign_other _ _ _ _ ha,
        mapFind_mapAssign_other _ _ _ _ ha, mapFind_mapAssign_other _ _ _ _ hb]

/-- C22. After any sequence of registrations on a fresh server, the entries
of the tools/list result are in strictly ascending order of name, the names
being the registry keys. The listing is a function of the registry contents:
two registration sequences that leave the same lookups give the same
tools/list outcome, and registering two tools with distinct names in either
order gives the same tools/list outcome. -/
theorem deterministic_listing (lib : ArduinoJson) (name version instructions : String)
    (request : MCPRequest) (hmethod : request.method = "tools/list") :
    (∀ registered : List Tool,
      ∃ response elements,
        (handle lib (registerAll (MCPServer.create name version instructions) registered)
          request).returned = Except.ok response ∧
        response.result.getMember "tools" = JsonVariant.array elements ∧
        entryNames elements =
          (registerAll (MCPServer.create name version instructions) registered).tools.map
            Prod.fst ∧
        (entryNames elements).Pairwise (fun a b => a < b)) ∧
    (∀ first second : List Tool,
      (∀ key,
        mapFind key (registerAll (MCPServer.create name version instructions) first).tools =
          mapFind key
            (registerAll (MCPServer.create name version instructions) second).tools) →
      handle lib (registerAll (MCPServer.create name version instructions) first) request =
        handle lib (registerAll (MCPServer.create name version instructions) second)
          request) ∧
    (∀ (registered : List Tool) (a b : Tool), a.name ≠ b.name →
      handle lib
          (((registerAll (MCPServer.create name version instructions)
            registered).RegisterTool a).RegisterTool b) request =
        handle lib
          (((registerAll (MCPServer.create name version instructions)
            registered).RegisterTool b).RegisterTool a) request) := by
  refine ⟨?_, ?_, ?_⟩
  · intro registered
    rw [handle_tools_list lib _ request hmethod]
    refine ⟨_, _, rfl, handleToolsList_result _ request, entryNames_tools _, ?_⟩
    rw [entryNames_tools]
    exact fresh_sorted name version instructions registered
  · intro first second hfind
    rw [handle_tools_list lib _ request hmethod, handle_tools_list lib _ request hmethod]
    rw [handleToolsList_of_tools _ _ request
      (sorted_ext _ _ (fresh_sorted name version instructions first)
        (fresh_sorted name version instructions second) hfind)]
  · intro registered a b hne
    rw [handle_tools_list lib _ request hmethod, handle_tools_list lib _ request hmethod]
    have hs := fresh_sorted name version instructions registered
    have htools :
        (((registerAll (MCPServer.create name version instructions)
          registered).RegisterTool a).RegisterTool b).tools =
        (((registerAll (MCPServer.create name version instructions)
          registered).RegisterTool b).RegisterTool a).tools := by
      show mapAssign b.name b.copy (mapAssign a.name a.copy _) =
        mapAssign a.name a.copy (mapAssign b.name b.copy _)
      exact sorted_ext _ _
        (mapAssign_sorted b.name b.copy _ (mapAssign_sorted a.name a.copy _ hs))
        (mapAssign_sorted a.name a.copy _ (mapAssign_sorted b.name b.copy _ hs))
        (fun key => register_twice_find _ a b key hne)
    rw [handleToolsList_of_tools _ _ request htools]

/-- C22 at the tools `point` and `echo` registered in both orders on a fresh
server. -/
theorem deterministic_listing_witness :
    listRequest.method = "tools/list" ∧
    pointTool.name ≠ (demoTool "echo" (some echoHandler)).name ∧
    handle Sample.json
        (((registerAll (MCPServer.create "dev" "1" "") []).RegisterTool pointTool).RegisterTool
          (demoTool "echo" (some echoHandler))) listRequest =
      handle Sample.json
        (((registerAll (MCPServer.create "dev" "1" "") []).RegisterTool
          (demoTool "echo" (some echoHandler))).RegisterTool pointTool) listRequest :=
  have hne : pointTool.name ≠ (demoTool "echo" (some echoHandler)).name := by decide
  ⟨rfl, hne,
    (deterministic_listing Sample.json "dev" "1" "" listRequest rfl).2.2 [] pointTool
      (demoTool "echo" (some echoHandler)) hne⟩

end MCP
